import Mathlib

/-!
# `ziti create config environment`

A shallow embedding of `ziti/cmd/ziti/cmd/create_config_environment.go`:
the command constructor `NewCmdCreateConfigEnvironment` (the text it stores in `cmd.Long`) and
the method `CreateConfigEnvironmentOptions.run`, together with the parts of the Go standard
library the two call (`strings.ToLower`, `path/filepath.Dir` and `Clean` for a Unix target,
`fmt.Sprintf` for the verbs used, `os.Stat`, `os.Create`, `(*os.File).Write` and `Close`,
`errors.Wrap`, `logrus.Fatalf`).

Go strings are modelled by `String`; every byte the code inspects (`/`, `.`, `%`, the letters of
`stdout`) is ASCII, so working on code points instead of UTF-8 bytes does not change a result.
-/

namespace Ziti

/-! ## `path/filepath` (Unix) -/

/-- The function `os.IsPathSeparator` on Unix: `PathSeparator == c`. -/
def IsPathSeparator (c : Char) : Bool := c == '/'

/-- The state of the main loop of `filepath.Clean`: `buf` holds the `out.w` bytes written to the
`lazybuf` so far, `dotdot` is the index in `buf` where `..` must stop. -/
structure CleanState where
  buf : List Char
  dotdot : Nat
deriving DecidableEq, Repr

/-- The inner loop `for out.w > dotdot && !os.IsPathSeparator(out.index(out.w)) { out.w-- }`,
started at `out.w = w`; the result is the final `out.w`. -/
def backtrack (buf : List Char) (dotdot : Nat) : Nat → Nat
  | 0 => 0
  | w + 1 =>
    if dotdot < w + 1 ∧ IsPathSeparator (buf.getD (w + 1) '/') = false then
      backtrack buf dotdot w
    else w + 1

/-- The body of `case path[r] == '.' && path[r+1] == '.' && ...` after `r += 2`:
backtrack over the last element when `out.w > dotdot`, append `..` when the path is not rooted,
do nothing at the root. -/
def dotdotElem (rooted : Bool) (s : CleanState) : CleanState :=
  if s.dotdot < s.buf.length then
    { s with buf := s.buf.take (backtrack s.buf s.dotdot (s.buf.length - 1)) }
  else if rooted = false then
    let b := (if 0 < s.buf.length then s.buf ++ ['/'] else s.buf) ++ ['.', '.']
    { buf := b, dotdot := b.length }
  else s

/-- The `default` case before the copy loop:
`if rooted && out.w != 1 || !rooted && out.w != 0 { out.append(Separator) }`. -/
def addSlash (rooted : Bool) (s : CleanState) : CleanState :=
  if (rooted = true ∧ s.buf.length ≠ 1) ∨ (rooted = false ∧ s.buf.length ≠ 0) then
    { s with buf := s.buf ++ ['/'] }
  else s

/-- Whether `r == n || os.IsPathSeparator(path[r])` for the rest `path[r:]`. -/
def atElemEnd : List Char → Bool
  | [] => true
  | c :: _ => IsPathSeparator c

/-- The loop `for r < n { switch ... }` of `filepath.Clean` on the unread rest `path[r:]`.
The flag is true while the copy loop `for ; r < n && !os.IsPathSeparator(path[r]); r++` of the
`default` case is running. -/
def cleanLoop (rooted : Bool) : Bool → List Char → CleanState → CleanState
  | _, [], s => s
  | true, c :: t, s =>
    if IsPathSeparator c then cleanLoop rooted false t s
    else cleanLoop rooted true t { s with buf := s.buf ++ [c] }
  | false, [c], s =>
    if IsPathSeparator c then s
    else if c = '.' then s
    else { addSlash rooted s with buf := (addSlash rooted s).buf ++ [c] }
  | false, c :: c2 :: t2, s =>
    if IsPathSeparator c then cleanLoop rooted false (c2 :: t2) s
    else if c = '.' ∧ IsPathSeparator c2 = true then cleanLoop rooted false (c2 :: t2) s
    else if c = '.' ∧ c2 = '.' ∧ atElemEnd t2 = true then
      cleanLoop rooted false t2 (dotdotElem rooted s)
    else
      cleanLoop rooted true (c2 :: t2)
        { addSlash rooted s with buf := (addSlash rooted s).buf ++ [c] }

/-- The bytes of `filepath.Clean(path)`, Unix: the volume name is empty and `FromSlash` is the
identity. -/
def cleanChars (path : List Char) : List Char :=
  match path with
  | [] => ['.']
  | c :: t =>
    let s :=
      if IsPathSeparator c then cleanLoop true false t { buf := ['/'], dotdot := 1 }
      else cleanLoop false false (c :: t) { buf := [], dotdot := 0 }
    if s.buf.length = 0 then ['.'] else s.buf

/-- The loop `i := len(path) - 1; for i >= 0 && !os.IsPathSeparator(path[i]) { i-- }` of
`filepath.Dir`, on `n = i + 1`; the result is the final `i + 1`. -/
def lastSepEnd (path : List Char) : Nat → Nat
  | 0 => 0
  | i + 1 => if IsPathSeparator (path.getD i '/') then i + 1 else lastSepEnd path i

/-- The bytes of `filepath.Dir(path)`: `Clean(path[:i+1])`. -/
def dirChars (path : List Char) : List Char :=
  cleanChars (path.take (lastSepEnd path path.length))

/-- The function `filepath.Clean`. -/
def Clean (path : String) : String := ⟨cleanChars path.data⟩

/-- The function `filepath.Dir`. -/
def Dir (path : String) : String := ⟨dirChars path.data⟩

/-! ## `strings` and `fmt` -/

/-- The lower-case form of one byte: `strings.ToLower` on an ASCII letter. -/
def toLowerChar (c : Char) : Char :=
  if 'A' ≤ c ∧ c ≤ 'Z' then Char.ofNat (c.toNat + 32) else c

/-- The function `strings.ToLower`. Outside ASCII the Go function follows the Unicode tables; no code point
outside ASCII has one of the letters of `stdout` as its lower case, so the comparison
`strings.ToLower(x) != "stdout"`, the only use here, has the same result with this definition. -/
def ToLower (s : String) : String := ⟨s.data.map toLowerChar⟩

/-- Whether `sub` starts the list `l`. -/
def startsWith : List Char → List Char → Bool
  | [], _ => true
  | _ :: _, [] => false
  | a :: sub, b :: l => a == b && startsWith sub l

/-- Whether `sub` occurs in the list `l`. -/
def containsChars (sub : List Char) : List Char → Bool
  | [] => startsWith sub []
  | c :: l => startsWith sub (c :: l) || containsChars sub l

/-- The call `strings.Contains(s, sub)`. -/
def Contains (s sub : String) : Bool := containsChars sub.data s.data

/-- Padding of `%<width>s`, on the right with the flag `-` and on the left without it; the width
counts code points, as `fmt` does. -/
def pad (minus : Bool) (width : Nat) (s : List Char) : List Char :=
  if minus then s ++ List.replicate (width - s.length) ' '
  else List.replicate (width - s.length) ' ' ++ s

/-- Where `fmt.Sprintf` is in the format: in plain text, or inside a verb after `%`, with the flag
`-` and the width read so far. -/
inductive FmtState where
  | text
  | verb (minus : Bool) (width : Nat)
deriving DecidableEq, Repr

/-- The text `%!(EXTRA string=a, string=b)` that `fmt` appends for unused operands. -/
def extraArgs : List String → List Char
  | [] => []
  | a :: rest =>
    "%!(EXTRA ".data ++ "string=".data ++ a.data
      ++ (rest.map (fun b => ", string=".data ++ b.data)).flatten ++ [')']

/-- The function `fmt.Sprintf` for string operands and a format made of text, `%%` and `%s` with the flag `-`
and a width: a missing operand prints `%!s(MISSING)`, another verb `%!c(string=...)`, and
operands left over are listed at the end. -/
def sprintfChars : FmtState → List Char → List String → List Char
  | .text, [], args => extraArgs args
  | .text, c :: cs, args =>
    if c = '%' then sprintfChars (.verb false 0) cs args
    else c :: sprintfChars .text cs args
  | .verb _ _, [], args => "%!(NOVERB)".data ++ extraArgs args
  | .verb minus width, c :: cs, args =>
    if c = '-' then sprintfChars (.verb true width) cs args
    else if c.isDigit then sprintfChars (.verb minus (width * 10 + (c.toNat - '0'.toNat))) cs args
    else if c = '%' then '%' :: sprintfChars .text cs args
    else
      match args with
      | [] => '%' :: '!' :: c :: "(MISSING)".data ++ sprintfChars .text cs []
      | a :: rest =>
        if c = 's' then pad minus width a.data ++ sprintfChars .text cs rest
        else '%' :: '!' :: c :: "(string=".data ++ a.data ++ [')'] ++ sprintfChars .text cs rest

/-- The call `fmt.Sprintf(format, args...)`. -/
def Sprintf (format : String) (args : List String) : String :=
  ⟨sprintfChars .text format.data args⟩

/-- The number of verbs of a format that consume an operand. -/
def countVerbs : FmtState → List Char → Nat
  | _, [] => 0
  | .text, c :: cs => if c = '%' then countVerbs (.verb false 0) cs else countVerbs .text cs
  | .verb minus width, c :: cs =>
    if c = '-' ∨ c.isDigit = true then countVerbs (.verb minus width) cs
    else if c = '%' then countVerbs .text cs
    else countVerbs .text cs + 1

/-! ## The data of the command

`ConfigTemplateValues`, `CreateConfigOptions` and `cmdhelper.EnvVariables` are declared in other
files of the package; they are given here with the fields this file reads, all of them strings
(each is printed with `%s`). The field `OS`, which `PreRun` sets, is taken to be one of
`ConfigTemplateValues`. -/

/-- The field `Controller.Edge` of `ConfigTemplateValues`. -/
structure EdgeControllerValues where
  ListenerHostPort : String
  AdvertisedHostPort : String
  IdentityCert : String
  IdentityServerCert : String
  IdentityKey : String
  IdentityCA : String
deriving DecidableEq, Repr

/-- The field `Controller` of `ConfigTemplateValues`. -/
structure ControllerTemplateValues where
  Name : String
  ListenerHostPort : String
  MgmtListenerHostPort : String
  IdentityCert : String
  IdentityServerCert : String
  IdentityKey : String
  IdentityCA : String
  Edge : EdgeControllerValues
deriving DecidableEq, Repr

/-- The field `Router.Edge` of `ConfigTemplateValues`. -/
structure EdgeRouterTemplateValues where
  Hostname : String
  Port : String
deriving DecidableEq, Repr

/-- The field `Router` of `ConfigTemplateValues`. -/
structure RouterTemplateValues where
  Edge : EdgeRouterTemplateValues
deriving DecidableEq, Repr

/-- The type `ConfigTemplateValues`: the values a configuration template is rendered with. -/
structure ConfigTemplateValues where
  OS : String
  ZitiHome : String
  ZitiSigningCert : String
  ZitiSigningKey : String
  Controller : ControllerTemplateValues
  Router : RouterTemplateValues
deriving DecidableEq, Repr

/-- The type `cmdhelper.EnvVariables`: the names of the environment variables, one field for each name. -/
structure EnvVariables where
  ZitiHomeVarName : String
  ZitiCtrlListenerHostPortVarName : String
  ZitiCtrlMgmtListenerHostPortVarName : String
  ZitiCtrlNameVarName : String
  ZitiEdgeCtrlListenerHostPortVarName : String
  ZitiEdgeCtrlAdvertisedHostPortVarName : String
  ZitiEdgeRouterHostnameVarName : String
  ZitiEdgeRouterPortVarName : String
  ZitiCtrlIdentityCertVarName : String
  ZitiCtrlIdentityServerCertVarName : String
  ZitiCtrlIdentityKeyVarName : String
  ZitiCtrlIdentityCAVarName : String
  ZitiEdgeCtrlIdentityCertVarName : String
  ZitiEdgeCtrlIdentityServerCertVarName : String
  ZitiEdgeCtrlIdentityKeyVarName : String
  ZitiEdgeCtrlIdentityCAVarName : String
  ZitiSigningCertVarName : String
  ZitiSigningKeyVarName : String
deriving DecidableEq, Repr

/-- The fields of `CreateConfigOptions` that this file reads: the flags `--output` and
`--verbose`. -/
structure CreateConfigOptions where
  Output : String
  Verbose : Bool
deriving DecidableEq, Repr

/-- The type `CreateConfigEnvironmentOptions`: the options for the create environment command. -/
structure CreateConfigEnvironmentOptions extends CreateConfigOptions, ConfigTemplateValues,
    EnvVariables where
  output : String
deriving DecidableEq, Repr

/-- The format string of `createConfigLong`. -/
def createConfigLongFormat : String :=
  "Creates a config file for specified Ziti component using environment variables which have default values but can be manually set to override the config output.\n\n" ++
  "The following environment variables can be set to override config values (current value is displayed):\n" ++
  "%-36s %s\n" ++
  "%-36s %s\n" ++
  "%-36s %s\n" ++
  "%-36s %s\n" ++
  "%-36s %s\n" ++
  "%-36s %s\n" ++
  "%-36s %s\n" ++
  "%-36s %s\n" ++
  "%-36s %s\n" ++
  "%-36s %s\n" ++
  "%-36s %s\n" ++
  "%-36s %s\n" ++
  "%-36s %s\n" ++
  "%-36s %s\n" ++
  "%-36s %s\n" ++
  "%-36s %s\n" ++
  "%-36s %s\n" ++
  "%-36s %s"

/-- The operands of the `fmt.Sprintf` call that builds `createConfigLong`, in order. -/
def createConfigLongArgs (EnvVariableNames : EnvVariables) (data : ConfigTemplateValues) :
    List String :=
  [EnvVariableNames.ZitiHomeVarName, data.ZitiHome,
   EnvVariableNames.ZitiCtrlListenerHostPortVarName, data.Controller.ListenerHostPort,
   EnvVariableNames.ZitiCtrlMgmtListenerHostPortVarName, data.Controller.MgmtListenerHostPort,
   EnvVariableNames.ZitiCtrlNameVarName, data.Controller.Name,
   EnvVariableNames.ZitiEdgeCtrlListenerHostPortVarName, data.Controller.Edge.ListenerHostPort,
   EnvVariableNames.ZitiEdgeCtrlAdvertisedHostPortVarName, data.Controller.Edge.AdvertisedHostPort,
   EnvVariableNames.ZitiEdgeRouterHostnameVarName, data.Router.Edge.Hostname,
   EnvVariableNames.ZitiEdgeRouterPortVarName, data.Router.Edge.Port,
   EnvVariableNames.ZitiCtrlIdentityCertVarName, data.Controller.IdentityCert,
   EnvVariableNames.ZitiCtrlIdentityServerCertVarName, data.Controller.IdentityServerCert,
   EnvVariableNames.ZitiCtrlIdentityKeyVarName, data.Controller.IdentityKey,
   EnvVariableNames.ZitiCtrlIdentityCAVarName, data.Controller.IdentityCA,
   EnvVariableNames.ZitiEdgeCtrlIdentityCertVarName, data.Controller.Edge.IdentityCert,
   EnvVariableNames.ZitiEdgeCtrlIdentityServerCertVarName, data.Controller.Edge.IdentityServerCert,
   EnvVariableNames.ZitiEdgeCtrlIdentityKeyVarName, data.Controller.Edge.IdentityKey,
   EnvVariableNames.ZitiEdgeCtrlIdentityCAVarName, data.Controller.Edge.IdentityCA,
   EnvVariableNames.ZitiSigningCertVarName, data.ZitiSigningCert,
   EnvVariableNames.ZitiSigningKeyVarName, data.ZitiSigningKey]

/-- The value `createConfigLong` that `NewCmdCreateConfigEnvironment` stores in `cmd.Long`. -/
def createConfigLong (EnvVariableNames : EnvVariables) (data : ConfigTemplateValues) : String :=
  Sprintf createConfigLongFormat (createConfigLongArgs EnvVariableNames data)

/-- The selectors of `cmdhelper.EnvVariableNames` that `NewCmdCreateConfigEnvironment` lists. -/
inductive EnvVarField where
  | ZitiHomeVarName
  | ZitiCtrlListenerHostPortVarName
  | ZitiCtrlMgmtListenerHostPortVarName
  | ZitiCtrlNameVarName
  | ZitiEdgeCtrlListenerHostPortVarName
  | ZitiEdgeCtrlAdvertisedHostPortVarName
  | ZitiEdgeRouterHostnameVarName
  | ZitiEdgeRouterPortVarName
  | ZitiCtrlIdentityCertVarName
  | ZitiCtrlIdentityServerCertVarName
  | ZitiCtrlIdentityKeyVarName
  | ZitiCtrlIdentityCAVarName
  | ZitiEdgeCtrlIdentityCertVarName
  | ZitiEdgeCtrlIdentityServerCertVarName
  | ZitiEdgeCtrlIdentityKeyVarName
  | ZitiEdgeCtrlIdentityCAVarName
  | ZitiSigningCertVarName
  | ZitiSigningKeyVarName
deriving DecidableEq, Repr

/-- The leaf fields of `ConfigTemplateValues` that `NewCmdCreateConfigEnvironment` lists. -/
inductive LeafField where
  | ZitiHome
  | ControllerListenerHostPort
  | ControllerMgmtListenerHostPort
  | ControllerName
  | ControllerEdgeListenerHostPort
  | ControllerEdgeAdvertisedHostPort
  | RouterEdgeHostname
  | RouterEdgePort
  | ControllerIdentityCert
  | ControllerIdentityServerCert
  | ControllerIdentityKey
  | ControllerIdentityCA
  | ControllerEdgeIdentityCert
  | ControllerEdgeIdentityServerCert
  | ControllerEdgeIdentityKey
  | ControllerEdgeIdentityCA
  | ZitiSigningCert
  | ZitiSigningKey
deriving DecidableEq, Repr

/-- The name stored under a selector of the registry. -/
def EnvVarField.get (names : EnvVariables) : EnvVarField → String
  | .ZitiHomeVarName => names.ZitiHomeVarName
  | .ZitiCtrlListenerHostPortVarName => names.ZitiCtrlListenerHostPortVarName
  | .ZitiCtrlMgmtListenerHostPortVarName => names.ZitiCtrlMgmtListenerHostPortVarName
  | .ZitiCtrlNameVarName => names.ZitiCtrlNameVarName
  | .ZitiEdgeCtrlListenerHostPortVarName => names.ZitiEdgeCtrlListenerHostPortVarName
  | .ZitiEdgeCtrlAdvertisedHostPortVarName => names.ZitiEdgeCtrlAdvertisedHostPortVarName
  | .ZitiEdgeRouterHostnameVarName => names.ZitiEdgeRouterHostnameVarName
  | .ZitiEdgeRouterPortVarName => names.ZitiEdgeRouterPortVarName
  | .ZitiCtrlIdentityCertVarName => names.ZitiCtrlIdentityCertVarName
  | .ZitiCtrlIdentityServerCertVarName => names.ZitiCtrlIdentityServerCertVarName
  | .ZitiCtrlIdentityKeyVarName => names.ZitiCtrlIdentityKeyVarName
  | .ZitiCtrlIdentityCAVarName => names.ZitiCtrlIdentityCAVarName
  | .ZitiEdgeCtrlIdentityCertVarName => names.ZitiEdgeCtrlIdentityCertVarName
  | .ZitiEdgeCtrlIdentityServerCertVarName => names.ZitiEdgeCtrlIdentityServerCertVarName
  | .ZitiEdgeCtrlIdentityKeyVarName => names.ZitiEdgeCtrlIdentityKeyVarName
  | .ZitiEdgeCtrlIdentityCAVarName => names.ZitiEdgeCtrlIdentityCAVarName
  | .ZitiSigningCertVarName => names.ZitiSigningCertVarName
  | .ZitiSigningKeyVarName => names.ZitiSigningKeyVarName

/-- The value of a leaf field. -/
def LeafField.get (data : ConfigTemplateValues) : LeafField → String
  | .ZitiHome => data.ZitiHome
  | .ControllerListenerHostPort => data.Controller.ListenerHostPort
  | .ControllerMgmtListenerHostPort => data.Controller.MgmtListenerHostPort
  | .ControllerName => data.Controller.Name
  | .ControllerEdgeListenerHostPort => data.Controller.Edge.ListenerHostPort
  | .ControllerEdgeAdvertisedHostPort => data.Controller.Edge.AdvertisedHostPort
  | .RouterEdgeHostname => data.Router.Edge.Hostname
  | .RouterEdgePort => data.Router.Edge.Port
  | .ControllerIdentityCert => data.Controller.IdentityCert
  | .ControllerIdentityServerCert => data.Controller.IdentityServerCert
  | .ControllerIdentityKey => data.Controller.IdentityKey
  | .ControllerIdentityCA => data.Controller.IdentityCA
  | .ControllerEdgeIdentityCert => data.Controller.Edge.IdentityCert
  | .ControllerEdgeIdentityServerCert => data.Controller.Edge.IdentityServerCert
  | .ControllerEdgeIdentityKey => data.Controller.Edge.IdentityKey
  | .ControllerEdgeIdentityCA => data.Controller.Edge.IdentityCA
  | .ZitiSigningCert => data.ZitiSigningCert
  | .ZitiSigningKey => data.ZitiSigningKey

/-- The pairs of selectors in the order of the operands of `createConfigLong`. -/
def listing : List (EnvVarField × LeafField) :=
  [(.ZitiHomeVarName, .ZitiHome),
   (.ZitiCtrlListenerHostPortVarName, .ControllerListenerHostPort),
   (.ZitiCtrlMgmtListenerHostPortVarName, .ControllerMgmtListenerHostPort),
   (.ZitiCtrlNameVarName, .ControllerName),
   (.ZitiEdgeCtrlListenerHostPortVarName, .ControllerEdgeListenerHostPort),
   (.ZitiEdgeCtrlAdvertisedHostPortVarName, .ControllerEdgeAdvertisedHostPort),
   (.ZitiEdgeRouterHostnameVarName, .RouterEdgeHostname),
   (.ZitiEdgeRouterPortVarName, .RouterEdgePort),
   (.ZitiCtrlIdentityCertVarName, .ControllerIdentityCert),
   (.ZitiCtrlIdentityServerCertVarName, .ControllerIdentityServerCert),
   (.ZitiCtrlIdentityKeyVarName, .ControllerIdentityKey),
   (.ZitiCtrlIdentityCAVarName, .ControllerIdentityCA),
   (.ZitiEdgeCtrlIdentityCertVarName, .ControllerEdgeIdentityCert),
   (.ZitiEdgeCtrlIdentityServerCertVarName, .ControllerEdgeIdentityServerCert),
   (.ZitiEdgeCtrlIdentityKeyVarName, .ControllerEdgeIdentityKey),
   (.ZitiEdgeCtrlIdentityCAVarName, .ControllerEdgeIdentityCA),
   (.ZitiSigningCertVarName, .ZitiSigningCert),
   (.ZitiSigningKeyVarName, .ZitiSigningKey)]

/-- The fixed text `createConfigLong` starts with: two paragraphs. -/
def longHeader : String :=
  "Creates a config file for specified Ziti component using environment variables which have default values but can be manually set to override the config output.\n\n" ++
  "The following environment variables can be set to override config values (current value is displayed):\n"

/-- One row of the listing: the name left-justified in 36 columns, one space, the value. -/
def longRow (name value : String) : String :=
  ⟨name.data ++ List.replicate (36 - name.length) ' '⟩ ++ " " ++ value

/-! ## Errors -/

/-- The error codes of the operating system that the model of the file system produces, and
`os.ErrClosed`. -/
inductive Errno where
  | ENOENT
  | ENOTDIR
  | EISDIR
  | ENOSPC
  | EBADF
  | ErrClosed
deriving DecidableEq, Repr

/-- The values of type `error` that reach `run`: an `*fs.PathError` of package `os`, an error of
`text/template`, and the wrapper made by `errors.Wrap` and `errors.Wrapf` of `pkg/errors`
(a message in front of a cause). -/
inductive GoError where
  | PathError (Op : String) (Path : String) (Err : Errno)
  | template (msg : String)
  | withMessage (cause : GoError) (msg : String)
deriving DecidableEq, Repr

/-- The text of an error code. -/
def Errno.Error : Errno → String
  | .ENOENT => "no such file or directory"
  | .ENOTDIR => "not a directory"
  | .EISDIR => "is a directory"
  | .ENOSPC => "no space left on device"
  | .EBADF => "bad file descriptor"
  | .ErrClosed => "file already closed"

/-- The method `Error()`. -/
def GoError.Error : GoError → String
  | .PathError op path err => op ++ " " ++ path ++ ": " ++ err.Error
  | .template msg => msg
  | .withMessage cause msg => msg ++ ": " ++ cause.Error

/-- The call `errors.Wrap(err, message)` for a non-nil `err`. -/
def Wrap (err : GoError) (message : String) : GoError := .withMessage err message

/-- The call `errors.Wrapf(err, format, args...)` for a non-nil `err`. -/
def Wrapf (err : GoError) (format : String) (args : List String) : GoError :=
  .withMessage err (Sprintf format args)

/-- The call `os.IsNotExist(err)`: the code under a `PathError` is `ENOENT`; false for `nil`. -/
def IsNotExist : Option GoError → Bool
  | some (.PathError _ _ .ENOENT) => true
  | _ => false

/-! ## The file system, the open files and the standard output

A file system without symbolic links and without permissions: a map from the absolute path of an
object, as the list of its elements, to a regular file with its content or a directory, the
working directory of the process, and the space left on the device. -/

/-- An object of the file system. -/
inductive Node where
  | file (content : String)
  | dir
deriving DecidableEq, Repr

/-- The state of the file system. -/
structure FileSys where
  cwd : List String
  node : List String → Option Node
  free : Nat

/-- The elements of a path: the runs between separators, empty ones included. -/
def splitElems : List Char → List (List Char)
  | [] => [[]]
  | c :: cs =>
    if IsPathSeparator c then [] :: splitElems cs
    else
      match splitElems cs with
      | [] => [[c]]
      | e :: es => (c :: e) :: es

/-- Path resolution from the directory `cur` through the elements left: each step needs `cur` to
be a directory, an empty element and `.` stay, `..` goes up. The result is the path of the
object named, which need not exist. -/
def walk (node : List String → Option Node) : List String → List (List Char) →
    Except Errno (List String)
  | cur, [] => .ok cur
  | cur, e :: es =>
    match node cur with
    | none => .error .ENOENT
    | some (.file _) => .error .ENOTDIR
    | some .dir =>
      if e = [] ∨ e = ['.'] then walk node cur es
      else if e = ['.', '.'] then walk node cur.dropLast es
      else walk node (cur ++ [String.mk e]) es

/-- The path of the object that `name` names, from the root for a rooted name and from the working
directory otherwise; the empty name names nothing. -/
def lookupPath (fs : FileSys) (name : String) : Except Errno (List String) :=
  match name.data with
  | [] => .error .ENOENT
  | c :: cs => walk fs.node (if IsPathSeparator c then [] else fs.cwd) (splitElems (c :: cs))

/-- Whether `name` names nothing in the file system: the resolution ends with `ENOENT`, or at a
path where no object is. -/
def FileSys.missing (fs : FileSys) (name : String) : Bool :=
  match lookupPath fs name with
  | .error .ENOENT => true
  | .error _ => false
  | .ok key => (fs.node key).isNone

/-- Whether `name` names a directory of the file system. -/
def FileSys.hasDir (fs : FileSys) (name : String) : Bool :=
  match lookupPath fs name with
  | .error _ => false
  | .ok key => fs.node key == some .dir

/-- The type `os.FileInfo`, as far as the model goes. -/
structure FileInfo where
  IsDir : Bool
  Size : Nat
deriving DecidableEq, Repr

/-- A file opened by `os.Create`: the name it was opened with, the object it is open on, the
offset of the next write, and whether `Close` has been called. -/
structure OpenFile where
  name : String
  key : List String
  offset : Nat
  closed : Bool
deriving DecidableEq, Repr

/-- A value of type `*os.File`: `os.Stdout`, or the file that the `id`-th successful call of
`os.Create` returned. -/
inductive File where
  | Stdout
  | created (id : Nat)
deriving DecidableEq, Repr

/-- The calls that leave the program: to the file system, to a file, to the logger, and the end of
the process. -/
inductive Event where
  | stat (name : String)
  | create (name : String)
  | write (f : File) (b : String)
  | close (f : File)
  | debugf (msg : String)
  | fatalf (msg : String)
  | exit (code : Nat)
deriving DecidableEq, Repr

/-- The state of the process and of its surroundings. The lines of the logger are kept in the
trace only, not in a stream. -/
structure World where
  fs : FileSys
  environ : List (String × String)
  stdout : String
  stdoutClosed : Bool
  files : List OpenFile
  trace : List Event

/-- The call `os.Stat(name)`. -/
def Stat (name : String) (w : World) : Except GoError FileInfo × World :=
  let w1 := { w with trace := w.trace ++ [.stat name] }
  match lookupPath w.fs name with
  | .error e => (.error (.PathError "stat" name e), w1)
  | .ok key =>
    match w.fs.node key with
    | none => (.error (.PathError "stat" name .ENOENT), w1)
    | some .dir => (.ok { IsDir := true, Size := 0 }, w1)
    | some (.file content) => (.ok { IsDir := false, Size := content.length }, w1)

/-- The file system with the empty regular file at `key`, and the space of `old` bytes given
back. -/
def FileSys.truncate (fs : FileSys) (key : List String) (old : Nat) : FileSys :=
  { fs with
    node := fun k => if k = key then some (.file "") else fs.node k
    free := fs.free + old }

/-- The call `os.Create(name)`: `OpenFile(name, O_RDWR|O_CREATE|O_TRUNC, 0666)`. An existing regular file
is truncated, a missing one is created empty in its directory, a directory is refused. -/
def Create (name : String) (w : World) : Except GoError File × World :=
  let w1 := { w with trace := w.trace ++ [.create name] }
  match lookupPath w.fs name with
  | .error e => (.error (.PathError "open" name e), w1)
  | .ok key =>
    match w.fs.node key with
    | some .dir => (.error (.PathError "open" name .EISDIR), w1)
    | some (.file old) =>
      (.ok (.created w.files.length),
        { w1 with
          fs := w.fs.truncate key old.length
          files := w.files ++ [{ name := name, key := key, offset := 0, closed := false }] })
    | none =>
      (.ok (.created w.files.length),
        { w1 with
          fs := w.fs.truncate key 0
          files := w.files ++ [{ name := name, key := key, offset := 0, closed := false }] })

/-- The content of a file after `written` is put at `offset` over `old`; a gap is filled with
zero bytes. -/
def overwrite (old : List Char) (offset : Nat) (written : List Char) : List Char :=
  old.take offset ++ List.replicate (offset - old.length) (Char.ofNat 0) ++ written
    ++ old.drop (offset + written.length)

/-- The call `f.Write(b)`: on the standard output the bytes are appended; on a created file they are put
at the offset, as many as the space left allows, and the call fails with `ENOSPC` when that is
not all of them. A closed file refuses. -/
def Write (f : File) (b : String) (w : World) : Option GoError × World :=
  let w1 := { w with trace := w.trace ++ [.write f b] }
  match f with
  | .Stdout =>
    if w.stdoutClosed then (some (.PathError "write" "/dev/stdout" .ErrClosed), w1)
    else (none, { w1 with stdout := w.stdout ++ b })
  | .created id =>
    match w.files[id]? with
    | none => (some (.PathError "write" "" .EBADF), w1)
    | some o =>
      if o.closed then (some (.PathError "write" o.name .ErrClosed), w1)
      else
        match w.fs.node o.key with
        | some (.file old) =>
          let room := w.fs.free + (old.length - o.offset)
          let written := b.data.take (min b.length room)
          let new := overwrite old.data o.offset written
          let w2 := { w1 with
            fs := { w.fs with
              node := fun k => if k = o.key then some (.file ⟨new⟩) else w.fs.node k
              free := w.fs.free + old.length - new.length }
            files := w.files.set id { o with offset := o.offset + written.length } }
          if written.length < b.length then (some (.PathError "write" o.name .ENOSPC), w2)
          else (none, w2)
        | _ => (some (.PathError "write" o.name .EBADF), w1)

/-- The call `f.Close()`: the first call closes, a later one fails with `os.ErrClosed`. -/
def Close (f : File) (w : World) : Option GoError × World :=
  let w1 := { w with trace := w.trace ++ [.close f] }
  match f with
  | .Stdout =>
    if w.stdoutClosed then (some (.PathError "close" "/dev/stdout" .ErrClosed), w1)
    else (none, { w1 with stdoutClosed := true })
  | .created id =>
    match w.files[id]? with
    | none => (some (.PathError "close" "" .EBADF), w1)
    | some o =>
      if o.closed then (some (.PathError "close" o.name .ErrClosed), w1)
      else (none, { w1 with files := w.files.set id { o with closed := true } })

/-- The function `logrus.Debugf`: the line, when the level lets it through, goes to the output of the logger. -/
def Debugf (msg : String) (w : World) : World :=
  { w with trace := w.trace ++ [.debugf msg] }

/-- The function `logrus.Fatalf`: the line is logged, then `logger.Exit(1)` ends the process. -/
def Fatalf (msg : String) (w : World) : World :=
  { w with trace := w.trace ++ [.fatalf msg, .exit 1] }

/-- Whether a call goes to the file system or to a file on it: `os.Stat`, `os.Create`, and a
write to or the closing of a created file. -/
def Event.touchesFileSystem : Event → Bool
  | .stat _ => true
  | .create _ => true
  | .write (.created _) _ => true
  | .close (.created _) => true
  | _ => false

/-- The call `os.Getenv(key)`: the value of the variable, empty when the variable is not set. -/
def Getenv (w : World) (key : String) : String :=
  match w.environ.find? (fun p => p.1 == key) with
  | some p => p.2
  | none => ""

/-! ## `text/template` -/

/-- A parsed template, by what executing it does: the pieces it writes, in order, for the data it
is given, and the error that stops the execution after them, if any. -/
structure Template where
  exec : CreateConfigEnvironmentOptions → List String × Option GoError

/-- The writes of `Execute`, one piece after the other; the first failed write ends them. -/
def writeAll (f : File) : List String → World → Option GoError × World
  | [], w => (none, w)
  | b :: rest, w =>
    match Write f b w with
    | (some err, w1) => (some err, w1)
    | (none, w1) => writeAll f rest w1

/-- The call `tmpl.Execute(wr, data)`: the error of a failed write is returned as it is, otherwise the
error of the execution. -/
def Execute (tmpl : Template) (wr : File) (data : CreateConfigEnvironmentOptions) (w : World) :
    Option GoError × World :=
  match writeAll wr (tmpl.exec data).1 w with
  | (some err, w1) => (some err, w1)
  | (none, w1) => ((tmpl.exec data).2, w1)

/-- The bytes a template produces: its pieces one after the other. -/
def joinPieces (pieces : List String) : String := ⟨(pieces.map String.data).flatten⟩

/-- What the package holds besides this file: the embedded text
`config_templates/environment.yml`, the parser of `text/template`
(`template.New("environment-config").Parse`), and the registry `cmdhelper.EnvVariableNames`. -/
structure Package where
  environmentConfigTemplate : String
  Parse : String → Except GoError Template
  EnvVariableNames : EnvVariables

/-! ## `run` and the command -/

/-- How a call ends: it returns its `error` result, or the process is ended inside it. -/
inductive Outcome where
  | returned (err : Option GoError)
  | exited (code : Nat)
deriving DecidableEq, Repr

/-- The end of `run`, from `defer func() { _ = f.Close() }()` on: the template is executed into
`f`, and `f` is closed when the function returns, on either path. -/
def runExecute (tmpl : Template) (f : File) (options : CreateConfigEnvironmentOptions)
    (w : World) : Outcome × World :=
  match Execute tmpl f options w with
  | (some err, w1) =>
    (.returned (some (Wrap err "unable to execute template")), (Close f w1).2)
  | (none, w1) =>
    let w2 := Debugf (Sprintf
      "Environment configuration file generated successfully and written to: %s"
      [options.Output]) w1
    (.returned none, (Close f w2).2)

/-- The `error` result of a call that returns a value and an error. -/
def errOf {α : Type} : Except GoError α → Option GoError
  | .ok _ => none
  | .error e => some e

/-- The method `CreateConfigEnvironmentOptions.run`. -/
def run (pkg : Package) (options : CreateConfigEnvironmentOptions) (w : World) :
    Outcome × World :=
  match pkg.Parse pkg.environmentConfigTemplate with
  | .error err => (.returned (some err), w)
  | .ok tmpl =>
    if ToLower options.Output ≠ "stdout" then
      -- Check if the path exists, fail if it doesn't
      let basePath := Dir options.Output ++ "/"
      let st := Stat (Dir basePath) w
      if IsNotExist (errOf st.1) then
        (.exited 1, Fatalf (Sprintf "Provided path: [%s] does not exist\n" [basePath]) st.2)
      else
        let cr := Create options.Output st.2
        let w3 := Debugf (Sprintf "Created output file: %s" [options.Output]) cr.2
        match cr.1 with
        | .error err =>
          (.returned (some (Wrapf err "unable to create config file: %s" [options.Output])), w3)
        | .ok f => runExecute tmpl f options w3
    else
      runExecute tmpl .Stdout options w

/-- The world after the call `os.Stat(filepath.Dir(options.Output))`. -/
def afterStat (options : CreateConfigEnvironmentOptions) (w : World) : World :=
  { w with trace := w.trace ++ [.stat (Dir options.Output)] }

/-- The world after the calls of `os.Stat`, `os.Create(options.Output)` and `logrus.Debugf`. -/
def afterCreate (options : CreateConfigEnvironmentOptions) (w : World) : World :=
  Debugf (Sprintf "Created output file: %s" [options.Output])
    (Create options.Output (afterStat options w)).2

/-- The part of the `*cobra.Command` that `NewCmdCreateConfigEnvironment` fills in, and the
variable `environmentOptions` that its closures share. The field `Example` and the hooks that
set up the logger are left out. -/
structure Command where
  Use : String
  Short : String
  Aliases : List String
  Long : String
  environmentOptions : CreateConfigEnvironmentOptions

/-- The call `NewCmdCreateConfigEnvironment(data)`: `environmentOptions` takes a copy of `*data` and the
registry, the other fields have their zero value; `cmd.Long` is `createConfigLong`. -/
def NewCmdCreateConfigEnvironment (pkg : Package) (data : ConfigTemplateValues) : Command :=
  { Use := "environment"
    Short := "Display config environment variables"
    Aliases := ["env"]
    Long := createConfigLong pkg.EnvVariableNames data
    environmentOptions :=
      { toCreateConfigOptions := { Output := "", Verbose := false }
        toConfigTemplateValues := data
        toEnvVariables := pkg.EnvVariableNames
        output := "" } }

/-- The flags `--output` and `--verbose` as parsed from the command line into
`environmentOptions` (they are bound by `addCreateFlags`). -/
def Command.parseFlags (cmd : Command) (flags : CreateConfigOptions) : Command :=
  { cmd with environmentOptions := { cmd.environmentOptions with toCreateConfigOptions := flags } }

/-- The hook `PreRun`, but for the set-up of the logger: `environmentOptions.OS = runtime.GOOS`. -/
def Command.PreRun (cmd : Command) (GOOS : String) : Command :=
  { cmd with environmentOptions := { cmd.environmentOptions with OS := GOOS } }

/-- The hook `Run` up to `err := environmentOptions.run()`. -/
def Command.Run (pkg : Package) (cmd : Command) (w : World) : Outcome × World :=
  run pkg cmd.environmentOptions w

/-- The command built from `data`, then run with the flags given. -/
def executeCommand (pkg : Package) (data : ConfigTemplateValues) (flags : CreateConfigOptions)
    (GOOS : String) (w : World) : Outcome × World :=
  (((NewCmdCreateConfigEnvironment pkg data).parseFlags flags).PreRun GOOS).Run pkg w

/-! ## Definitions for the proofs about `filepath.Clean` and `fmt.Sprintf` -/

/-- What the `default` case does with a whole element `e`: a separator when needed, then the
bytes of `e`. -/
def pushElem (rooted : Bool) (s : CleanState) (e : List Char) : CleanState :=
  { addSlash rooted s with buf := (addSlash rooted s).buf ++ e }

/-- The second branch of the `..` case: `..` appended after a separator when needed, and
`dotdot` moved behind it. -/
def appendDotDot (s : CleanState) : CleanState :=
  { buf := (if 0 < s.buf.length then s.buf ++ ['/'] else s.buf) ++ ['.', '.'],
    dotdot := ((if 0 < s.buf.length then s.buf ++ ['/'] else s.buf) ++ ['.', '.']).length }

/-- What one path element `e` (a maximal run without separator) does to the state of the loop. -/
def elemStep (rooted : Bool) (e : List Char) (s : CleanState) : CleanState :=
  if e = [] then s
  else if e = ['.'] then s
  else if e = ['.', '.'] then dotdotElem rooted s
  else pushElem rooted s e

/-- The state of the loop before the first element is read. -/
def cleanInit (rooted : Bool) : CleanState :=
  if rooted then { buf := ['/'], dotdot := 1 } else { buf := [], dotdot := 0 }

/-- An element that `filepath.Clean` keeps: not empty, not `.`, not `..`, without separator. -/
def NormalElem (e : List Char) : Prop :=
  e ≠ [] ∧ e ≠ ['.'] ∧ e ≠ ['.', '.'] ∧ ∀ c ∈ e, IsPathSeparator c = false

/-- The states the loop of `filepath.Clean` can be in between two elements. -/
inductive Good (rooted : Bool) : CleanState → Prop
  | init : Good rooted (cleanInit rooted)
  | dots (s : CleanState) : rooted = false → Good rooted s → s.dotdot = s.buf.length →
      Good rooted (appendDotDot s)
  | push (s : CleanState) (e : List Char) : Good rooted s → NormalElem e →
      Good rooted (pushElem rooted s e)

/-- The bytes of a state that `filepath.Clean` reads again when it is given them as a path: all of
them, the leading separator of a rooted path apart. -/
def body (rooted : Bool) (s : CleanState) : List Char :=
  if rooted then s.buf.tail else s.buf

/-- The bytes of one row of the listing. -/
def rowChars (p : String × String) : List Char :=
  pad true 36 p.1.data ++ ' ' :: p.2.data

/-- The bytes of the format of one row. -/
def rowFormat : List Char := "%-36s %s".data

/-! ## Example inputs -/

/-- A file system with the directories `/` and `/tmp`, the file `/tmp/out.yml` with the content
given, and `free` bytes left. -/
def fsTmp (content : String) (free : Nat) : FileSys :=
  { cwd := []
    node := fun k =>
      if k = [] then some .dir
      else if k = ["tmp"] then some .dir
      else if k = ["tmp", "out.yml"] then some (.file content)
      else none
    free := free }

/-- A world on a file system, with nothing written and nothing open. -/
def worldOn (fs : FileSys) (environ : List (String × String)) : World :=
  { fs := fs, environ := environ, stdout := "", stdoutClosed := false, files := [], trace := [] }

/-- A template with the text `hostname: ` and the action `{{ .Router.Edge.Hostname }}`. -/
def hostnameTemplate : Template :=
  { exec := fun o => (["hostname: ", o.Router.Edge.Hostname], none) }

/-- A package whose embedded template parses to `hostnameTemplate`. -/
def pkgHostname (names : EnvVariables) : Package :=
  { environmentConfigTemplate := "hostname: \x7b\x7b .Router.Edge.Hostname \x7d\x7d"
    Parse := fun _ => .ok hostnameTemplate
    EnvVariableNames := names }

/-- A registry with the names of the variables. -/
def namesExample : EnvVariables :=
  { ZitiHomeVarName := "ZITI_HOME"
    ZitiCtrlListenerHostPortVarName := "ZITI_CTRL_LISTENER_HOST_PORT"
    ZitiCtrlMgmtListenerHostPortVarName := "ZITI_CTRL_MGMT_HOST_PORT"
    ZitiCtrlNameVarName := "ZITI_CONTROLLER_NAME"
    ZitiEdgeCtrlListenerHostPortVarName := "ZITI_CTRL_EDGE_LISTENER_HOST_PORT"
    ZitiEdgeCtrlAdvertisedHostPortVarName := "ZITI_CTRL_EDGE_ADVERTISED_HOST_PORT"
    ZitiEdgeRouterHostnameVarName := "ZITI_EDGE_ROUTER_HOSTNAME"
    ZitiEdgeRouterPortVarName := "ZITI_EDGE_ROUTER_PORT"
    ZitiCtrlIdentityCertVarName := "ZITI_CTRL_IDENTITY_CERT"
    ZitiCtrlIdentityServerCertVarName := "ZITI_CTRL_IDENTITY_SERVER_CERT"
    ZitiCtrlIdentityKeyVarName := "ZITI_CTRL_IDENTITY_KEY"
    ZitiCtrlIdentityCAVarName := "ZITI_CTRL_IDENTITY_CA"
    ZitiEdgeCtrlIdentityCertVarName := "ZITI_EDGE_CTRL_IDENTITY_CERT"
    ZitiEdgeCtrlIdentityServerCertVarName := "ZITI_EDGE_CTRL_IDENTITY_SERVER_CERT"
    ZitiEdgeCtrlIdentityKeyVarName := "ZITI_EDGE_CTRL_IDENTITY_KEY"
    ZitiEdgeCtrlIdentityCAVarName := "ZITI_EDGE_CTRL_IDENTITY_CA"
    ZitiSigningCertVarName := "ZITI_SIGNING_CERT"
    ZitiSigningKeyVarName := "ZITI_SIGNING_KEY" }

/-- Values with the host name of the edge router given and every other field empty. -/
def dataHostname (hostname : String) : ConfigTemplateValues :=
  { OS := "", ZitiHome := "", ZitiSigningCert := "", ZitiSigningKey := ""
    Controller :=
      { Name := "", ListenerHostPort := "", MgmtListenerHostPort := "", IdentityCert := ""
        IdentityServerCert := "", IdentityKey := "", IdentityCA := ""
        Edge :=
          { ListenerHostPort := "", AdvertisedHostPort := "", IdentityCert := ""
            IdentityServerCert := "", IdentityKey := "", IdentityCA := "" } }
    Router := { Edge := { Hostname := hostname, Port := "" } } }

/-- The options `run` is called with when the command is built from `dataHostname hostname`
and run with `--output output`. -/
def optionsFor (names : EnvVariables) (hostname output : String) :
    CreateConfigEnvironmentOptions :=
  (((NewCmdCreateConfigEnvironment (pkgHostname names) (dataHostname hostname)).parseFlags
    { Output := output, Verbose := false }).PreRun "linux").environmentOptions

/-! ## Lemmas and theorems -/

theorem cleanLoop_nil (rooted copying : Bool) (s : CleanState) :
    cleanLoop rooted copying [] s = s := by
  cases copying <;> rfl

theorem cleanLoop_true_cons (rooted : Bool) (c : Char) (t : List Char) (s : CleanState) :
    cleanLoop rooted true (c :: t) s
      = if IsPathSeparator c then cleanLoop rooted false t s
        else cleanLoop rooted true t { s with buf := s.buf ++ [c] } := by
  rw [cleanLoop]

theorem cleanLoop_false_one (rooted : Bool) (c : Char) (s : CleanState) :
    cleanLoop rooted false [c] s
      = if IsPathSeparator c then s
        else if c = '.' then s
        else pushElem rooted s [c] := by
  rw [cleanLoop]; rfl

theorem cleanLoop_false_two (rooted : Bool) (c c2 : Char) (t2 : List Char) (s : CleanState) :
    cleanLoop rooted false (c :: c2 :: t2) s
      = if IsPathSeparator c then cleanLoop rooted false (c2 :: t2) s
        else if c = '.' ∧ IsPathSeparator c2 = true then cleanLoop rooted false (c2 :: t2) s
        else if c = '.' ∧ c2 = '.' ∧ atElemEnd t2 = true then
          cleanLoop rooted false t2 (dotdotElem rooted s)
        else cleanLoop rooted true (c2 :: t2) (pushElem rooted s [c]) := by
  rw [cleanLoop]; rfl

theorem cleanLoop_sep (rooted : Bool) (c : Char) (t : List Char) (s : CleanState)
    (hc : IsPathSeparator c = true) :
    cleanLoop rooted false (c :: t) s = cleanLoop rooted false t s := by
  cases t with
  | nil => rw [cleanLoop_false_one, if_pos hc, cleanLoop_nil]
  | cons c2 t2 => rw [cleanLoop_false_two, if_pos hc]

theorem cleanLoop_copy_end (rooted : Bool) (rest : List Char) (s : CleanState)
    (hrest : atElemEnd rest = true) :
    cleanLoop rooted true rest s = cleanLoop rooted false rest s := by
  cases rest with
  | nil => rw [cleanLoop_nil, cleanLoop_nil]
  | cons c t =>
    have hc : IsPathSeparator c = true := by simpa [atElemEnd] using hrest
    rw [cleanLoop_sep rooted c t s hc, cleanLoop_true_cons, if_pos hc]

theorem cleanLoop_copy (rooted : Bool) (e rest : List Char)
    (he : ∀ c ∈ e, IsPathSeparator c = false) (hrest : atElemEnd rest = true) (s : CleanState) :
    cleanLoop rooted true (e ++ rest) s
      = cleanLoop rooted false rest { s with buf := s.buf ++ e } := by
  induction e generalizing s with
  | nil => simpa using cleanLoop_copy_end rooted rest s hrest
  | cons c e ih =>
    have hc : IsPathSeparator c = false := he c (by simp)
    have he2 : ∀ x ∈ e, IsPathSeparator x = false := fun x hx => he x (by simp [hx])
    rw [List.cons_append, cleanLoop_true_cons, hc, ih he2]
    simp

theorem cleanLoop_elem (rooted : Bool) (e rest : List Char)
    (he : ∀ c ∈ e, IsPathSeparator c = false) (hrest : atElemEnd rest = true) (s : CleanState) :
    cleanLoop rooted false (e ++ rest) s = cleanLoop rooted false rest (elemStep rooted e s) := by
  match e, he with
  | [], _ => simp [elemStep]
  | [c], he =>
    have hc : IsPathSeparator c = false := he c (by simp)
    by_cases hdot : c = '.'
    · subst hdot
      cases rest with
      | nil => simp [cleanLoop_false_one, cleanLoop_nil, elemStep, hc]
      | cons c2 t2 =>
        have hc2 : IsPathSeparator c2 = true := by simpa [atElemEnd] using hrest
        simp [cleanLoop_false_two, elemStep, hc2, hc]
    · cases rest with
      | nil => simp [cleanLoop_false_one, cleanLoop_nil, elemStep, hc, hdot]
      | cons c2 t2 =>
        have h := cleanLoop_copy rooted [] (c2 :: t2) (by simp) hrest
        simp only [List.nil_append, List.append_nil] at h
        simp [cleanLoop_false_two, elemStep, hc, hdot, h]
  | c :: c2 :: e, he =>
    have hc : IsPathSeparator c = false := he c (by simp)
    have hc2 : IsPathSeparator c2 = false := he c2 (by simp)
    have he2 : ∀ x ∈ c2 :: e, IsPathSeparator x = false := fun x hx => he x (by simp [hx])
    by_cases hdd : c = '.' ∧ c2 = '.' ∧ atElemEnd (e ++ rest) = true
    · obtain ⟨h1, h2, h3⟩ := hdd
      subst h1; subst h2
      cases e with
      | nil => simp [cleanLoop_false_two, elemStep, hc, hrest]
      | cons c3 e3 =>
        have hc3 : IsPathSeparator c3 = false := he c3 (by simp)
        simp [atElemEnd, hc3] at h3
    · have hne : ¬ (c :: c2 :: e = ['.', '.']) := by
        intro h
        simp at h
        obtain ⟨h1, h2, h3⟩ := h
        subst h3
        exact hdd ⟨h1, h2, by simpa using hrest⟩
      have h := cleanLoop_copy rooted (c2 :: e) rest he2 hrest (pushElem rooted s [c])
      simp only [List.cons_append] at h
      rw [List.cons_append, List.cons_append, cleanLoop_false_two, hc, hc2, if_neg hdd, h]
      simp [elemStep, hne, pushElem]

theorem backtrack_stop (buf : List Char) (dd p : Nat) (hdd : dd ≤ p)
    (hstop : dd = p ∨ IsPathSeparator (buf.getD p '/') = true) (n : Nat)
    (hrun : ∀ i, p < i → i ≤ p + n → IsPathSeparator (buf.getD i '/') = false) :
    backtrack buf dd (p + n) = p := by
  induction n with
  | zero =>
    cases p with
    | zero => rfl
    | succ w =>
      have : ¬ (dd < w + 1 ∧ IsPathSeparator (buf.getD (w + 1) '/') = false) := by
        rintro ⟨h1, h2⟩
        rcases hstop with h | h
        · omega
        · rw [h] at h2; exact Bool.noConfusion h2
      simp only [Nat.add_zero, backtrack, if_neg this]
  | succ n ih =>
    have h1 : dd < p + n + 1 := by omega
    have h2 : IsPathSeparator (buf.getD (p + n + 1) '/') = false :=
      hrun (p + n + 1) (by omega) (by omega)
    have : backtrack buf dd (p + (n + 1)) = backtrack buf dd (p + n) := by
      show backtrack buf dd (p + n + 1) = _
      rw [backtrack, if_pos ⟨h1, h2⟩]
    rw [this]
    exact ih (fun i hi1 hi2 => hrun i hi1 (by omega))

theorem Good.dotdot_le {rooted : Bool} {s : CleanState} (h : Good rooted s) :
    s.dotdot ≤ s.buf.length := by
  induction h with
  | init => cases rooted <;> simp [cleanInit]
  | dots s _ _ _ _ => simp [appendDotDot]
  | push s e _ _ ih =>
    simp only [pushElem, addSlash]
    split <;> simp <;> omega

theorem Good.rooted_form {s : CleanState} (h : Good true s) :
    s.dotdot = 1 ∧ ∃ b, s.buf = '/' :: b := by
  induction h with
  | init => simp [cleanInit]
  | dots s hr _ _ _ => exact Bool.noConfusion hr
  | push s e _ _ ih =>
    obtain ⟨h1, b, h2⟩ := ih
    refine ⟨by simp [pushElem, addSlash]; split <;> simp [h1], ?_⟩
    simp only [pushElem, addSlash]
    split <;> simp [h2]

theorem Good.head_not_sep {s : CleanState} (h : Good false s) :
    ∀ c t, s.buf = c :: t → IsPathSeparator c = false := by
  induction h with
  | init => simp [cleanInit]
  | dots s _ _ _ ih =>
    intro c t hct
    cases hb : s.buf with
    | nil =>
      simp [appendDotDot, hb] at hct
      rw [← hct.1]; rfl
    | cons c0 t0 =>
      simp [appendDotDot, hb] at hct
      rw [← hct.1]; exact ih c0 t0 hb
  | push s e _ he ih =>
    intro c t hct
    cases hb : s.buf with
    | nil =>
      simp [pushElem, addSlash, hb] at hct
      exact he.2.2.2 c (by rw [hct]; simp)
    | cons c0 t0 =>
      simp [pushElem, addSlash, hb] at hct
      rw [← hct.1]; exact ih c0 t0 hb

theorem getD_not_sep (e : List Char) (he : ∀ c ∈ e, IsPathSeparator c = false) (j : Nat)
    (hj : j < e.length) : IsPathSeparator (e.getD j '/') = false := by
  rw [List.getD_eq_getElem e '/' hj]
  exact he _ (List.getElem_mem hj)

theorem dotdotElem_pushElem (rooted : Bool) (s : CleanState) (e : List Char)
    (hs : Good rooted s) (he : NormalElem e) :
    dotdotElem rooted (pushElem rooted s e) = s := by
  obtain ⟨hne, -, -, hsep⟩ := he
  have hlen : 0 < e.length := List.length_pos.mpr hne
  have hdd := hs.dotdot_le
  by_cases hslash : (rooted = true ∧ s.buf.length ≠ 1) ∨ (rooted = false ∧ s.buf.length ≠ 0)
  · have hp : pushElem rooted s e = { buf := s.buf ++ '/' :: e, dotdot := s.dotdot } := by
      simp only [pushElem, addSlash, if_pos hslash]
      simp
    have hbt : backtrack (s.buf ++ '/' :: e) s.dotdot (s.buf.length + e.length)
        = s.buf.length := by
      apply backtrack_stop _ _ _ hdd
      · right
        rw [List.getD_append_right _ _ _ _ (le_refl _)]
        simp [IsPathSeparator]
      · intro i hi1 hi2
        rw [List.getD_append_right _ _ _ _ (le_of_lt hi1)]
        obtain ⟨j, rfl⟩ : ∃ j, i = s.buf.length + (j + 1) := ⟨i - s.buf.length - 1, by omega⟩
        have : s.buf.length + (j + 1) - s.buf.length = j + 1 := by omega
        rw [this, List.getD_cons_succ]
        exact getD_not_sep e hsep j (by omega)
    have hlt : s.dotdot < (s.buf ++ '/' :: e).length := by simp; omega
    have hl1 : (s.buf ++ '/' :: e).length - 1 = s.buf.length + e.length := by simp
    rw [hp]
    simp only [dotdotElem, if_pos hlt, hl1, hbt, List.take_left]
  · have hp : pushElem rooted s e = { buf := s.buf ++ e, dotdot := s.dotdot } := by
      simp only [pushElem, addSlash, if_neg hslash]
    have hstop : s.dotdot = s.buf.length := by
      cases rooted with
      | true =>
        have h1 : s.buf.length = 1 := by
          by_contra h
          exact hslash (Or.inl ⟨rfl, h⟩)
        rw [h1]; exact hs.rooted_form.1
      | false =>
        have h1 : s.buf.length = 0 := by
          by_contra h
          exact hslash (Or.inr ⟨rfl, h⟩)
        omega
    have hbt : backtrack (s.buf ++ e) s.dotdot (s.buf.length + (e.length - 1))
        = s.buf.length := by
      apply backtrack_stop _ _ _ hdd (Or.inl hstop)
      intro i hi1 hi2
      rw [List.getD_append_right _ _ _ _ (le_of_lt hi1)]
      exact getD_not_sep e hsep _ (by omega)
    have hlt : s.dotdot < (s.buf ++ e).length := by simp; omega
    have hl1 : (s.buf ++ e).length - 1 = s.buf.length + (e.length - 1) := by simp; omega
    rw [hp]
    simp only [dotdotElem, if_pos hlt, hl1, hbt, List.take_left]

theorem Good.elemStep {rooted : Bool} {s : CleanState} (hs : Good rooted s) (e : List Char)
    (he : ∀ c ∈ e, IsPathSeparator c = false) : Good rooted (elemStep rooted e s) := by
  unfold Ziti.elemStep
  by_cases h1 : e = []
  · rw [if_pos h1]; exact hs
  by_cases h2 : e = ['.']
  · rw [if_neg h1, if_pos h2]; exact hs
  by_cases h3 : e = ['.', '.']
  · rw [if_neg h1, if_neg h2, if_pos h3]
    cases hs with
    | init =>
      cases rooted with
      | true => simp [dotdotElem, cleanInit]; exact Good.init
      | false => exact Good.dots _ rfl Good.init rfl
    | dots s0 hr hs0 hd0 =>
      have hd : (appendDotDot s0).dotdot = (appendDotDot s0).buf.length := by simp [appendDotDot]
      have := Good.dots _ hr (Good.dots s0 hr hs0 hd0) hd
      have heq : dotdotElem rooted (appendDotDot s0) = appendDotDot (appendDotDot s0) := by
        subst hr
        simp [dotdotElem, appendDotDot]
      rw [heq]; exact this
    | push s0 e0 hs0 he0 =>
      rw [dotdotElem_pushElem rooted s0 e0 hs0 he0]; exact hs0
  · rw [if_neg h1, if_neg h2, if_neg h3]
    exact Good.push s e hs ⟨h1, h2, h3, he⟩

theorem split_elem (c : Char) (t : List Char) (hc : IsPathSeparator c = false) :
    ∃ e rest, c :: t = e ++ rest ∧ (∀ x ∈ e, IsPathSeparator x = false) ∧
      atElemEnd rest = true ∧ rest.length < (c :: t).length := by
  refine ⟨(c :: t).takeWhile (fun x => !IsPathSeparator x),
    (c :: t).dropWhile (fun x => !IsPathSeparator x), (List.takeWhile_append_dropWhile _ _).symm,
    ?_, ?_, ?_⟩
  · intro x hx
    simpa using List.mem_takeWhile_imp hx
  · cases h : (c :: t).dropWhile (fun x => !IsPathSeparator x) with
    | nil => rfl
    | cons y ys =>
      have := List.head_dropWhile_not (fun x => !IsPathSeparator x) (c :: t) (by rw [h]; simp)
      simp only [h, List.head_cons] at this
      simpa [atElemEnd] using this
  · rw [List.dropWhile_cons_of_pos (by simp [hc])]
    exact Nat.lt_succ_of_le (List.Sublist.length_le (List.dropWhile_sublist _))

theorem cleanLoop_good (rooted : Bool) (n : Nat) :
    ∀ (input : List Char) (s : CleanState), input.length ≤ n → Good rooted s →
      Good rooted (cleanLoop rooted false input s) := by
  induction n with
  | zero =>
    intro input s hlen hs
    have : input = [] := List.length_eq_zero.mp (Nat.le_zero.mp hlen)
    rw [this, cleanLoop_nil]; exact hs
  | succ n ih =>
    intro input s hlen hs
    cases input with
    | nil => rw [cleanLoop_nil]; exact hs
    | cons c t =>
      cases hc : IsPathSeparator c with
      | true =>
        rw [cleanLoop_sep rooted c t s hc]
        exact ih t s (by simpa using hlen) hs
      | false =>
        obtain ⟨e, rest, heq, he, hrest, hlt⟩ := split_elem c t hc
        rw [heq, cleanLoop_elem rooted e rest he hrest s]
        exact ih rest _ (by omega) (hs.elemStep e he)

theorem elemStep_normal (rooted : Bool) (s : CleanState) (e : List Char) (he : NormalElem e) :
    elemStep rooted e s = pushElem rooted s e := by
  simp [elemStep, he.1, he.2.1, he.2.2.1]

theorem NormalElem.no_sep {e : List Char} (he : NormalElem e) :
    ∀ c ∈ e, IsPathSeparator c = false := he.2.2.2

theorem body_pushElem (rooted : Bool) (s : CleanState) (e : List Char) (hs : Good rooted s) :
    (s = cleanInit rooted ∧ body rooted (pushElem rooted s e) = e) ∨
      body rooted (pushElem rooted s e) = body rooted s ++ '/' :: e := by
  cases rooted with
  | true =>
    obtain ⟨hd, b, hb⟩ := hs.rooted_form
    cases b with
    | nil =>
      left
      refine ⟨?_, by simp [body, pushElem, addSlash, hb]⟩
      cases s
      simp_all [cleanInit]
    | cons c0 b0 =>
      right
      simp [body, pushElem, addSlash, hb]
  | false =>
    cases hb : s.buf with
    | nil =>
      left
      have hd := hs.dotdot_le
      refine ⟨?_, by simp [body, pushElem, addSlash, hb]⟩
      cases s
      simp_all [cleanInit]
    | cons c0 b0 =>
      right
      simp [body, pushElem, addSlash, hb]

theorem body_appendDotDot (s : CleanState) (hs : Good false s) :
    (s = cleanInit false ∧ body false (appendDotDot s) = ['.', '.']) ∨
      body false (appendDotDot s) = body false s ++ '/' :: ['.', '.'] := by
  cases hb : s.buf with
  | nil =>
    left
    have hd := hs.dotdot_le
    refine ⟨?_, by simp [body, appendDotDot, hb]⟩
    cases s
    simp_all [cleanInit]
  | cons c0 b0 =>
    right
    simp [body, appendDotDot, hb]

theorem dotdotElem_at_dotdot (s : CleanState) (h : s.dotdot = s.buf.length) :
    dotdotElem false s = appendDotDot s := by
  simp [dotdotElem, appendDotDot, h]

theorem cleanLoop_body (rooted : Bool) (s : CleanState) (hs : Good rooted s) :
    ∀ rest, atElemEnd rest = true →
      cleanLoop rooted false (body rooted s ++ rest) (cleanInit rooted)
        = cleanLoop rooted false rest s := by
  induction hs with
  | init =>
    intro rest _
    cases rooted <;> simp [body, cleanInit]
  | dots s hr hs hd ih =>
    intro rest hrest
    subst hr
    have hdots : ∀ c ∈ ['.', '.'], IsPathSeparator c = false := by
      intro c hc
      simp at hc
      subst hc
      rfl
    have hstep : ∀ s0 : CleanState, elemStep false ['.', '.'] s0 = dotdotElem false s0 := by
      intro s0
      simp [elemStep]
    rcases body_appendDotDot s hs with ⟨h1, h2⟩ | h2
    · rw [h2, cleanLoop_elem false _ rest hdots hrest, hstep, ← h1, dotdotElem_at_dotdot s hd]
    · rw [h2, List.append_assoc, ih _ (by rfl), List.cons_append,
        cleanLoop_sep false '/' _ s rfl, cleanLoop_elem false _ rest hdots hrest, hstep,
        dotdotElem_at_dotdot s hd]
  | push s e hs he ih =>
    intro rest hrest
    rcases body_pushElem rooted s e hs with ⟨h1, h2⟩ | h2
    · rw [h2, cleanLoop_elem rooted e rest he.no_sep hrest, elemStep_normal rooted _ e he, ← h1]
    · rw [h2, List.append_assoc, ih _ (by rfl), List.cons_append,
        cleanLoop_sep rooted '/' _ s rfl, cleanLoop_elem rooted e rest he.no_sep hrest,
        elemStep_normal rooted _ e he]

theorem cleanChars_dot_slash : cleanChars (['.'] ++ ['/']) = ['.'] := by decide

theorem cleanChars_cleanChars_slash (x : List Char) :
    cleanChars (cleanChars x ++ ['/']) = cleanChars x := by
  cases x with
  | nil => exact cleanChars_dot_slash
  | cons c t =>
    cases hc : IsPathSeparator c with
    | true =>
      have hs : Good true (cleanLoop true false t (cleanInit true)) :=
        cleanLoop_good true t.length t _ (le_refl _) Good.init
      obtain ⟨-, b, hb⟩ := hs.rooted_form
      have hbody : body true (cleanLoop true false t (cleanInit true)) = b := by
        simp [body, hb]
      have hre := cleanLoop_body true _ hs ['/'] rfl
      rw [hbody, cleanLoop_sep true '/' [] _ rfl, cleanLoop_nil] at hre
      have h1 : cleanChars (c :: t) = '/' :: b := by
        simp only [cleanChars, hc, if_true]
        change (if (cleanLoop true false t (cleanInit true)).buf.length = 0 then ['.']
          else (cleanLoop true false t (cleanInit true)).buf) = _
        rw [hb]; simp
      rw [h1]
      simp only [List.cons_append, cleanChars]
      change (if (cleanLoop true false (b ++ ['/']) (cleanInit true)).buf.length = 0 then ['.']
          else (cleanLoop true false (b ++ ['/']) (cleanInit true)).buf) = _
      rw [hre, hb]; simp
    | false =>
      have hs : Good false (cleanLoop false false (c :: t) (cleanInit false)) :=
        cleanLoop_good false (c :: t).length (c :: t) _ (le_refl _) Good.init
      have hre := cleanLoop_body false _ hs ['/'] rfl
      rw [cleanLoop_sep false '/' [] _ rfl, cleanLoop_nil] at hre
      have h1 : cleanChars (c :: t)
          = if (cleanLoop false false (c :: t) (cleanInit false)).buf.length = 0 then ['.']
            else (cleanLoop false false (c :: t) (cleanInit false)).buf := by
        simp only [cleanChars, hc]
        rfl
      cases hb : (cleanLoop false false (c :: t) (cleanInit false)).buf with
      | nil =>
        rw [h1, hb]
        exact cleanChars_dot_slash
      | cons c0 b0 =>
        have hc0 : IsPathSeparator c0 = false := hs.head_not_sep c0 b0 hb
        rw [h1, hb]
        simp only [body, hb] at hre
        simp only [List.length_cons, Nat.add_one_ne_zero, if_false, List.cons_append, cleanChars,
          hc0]
        change (if (cleanLoop false false (c0 :: (b0 ++ ['/'])) (cleanInit false)).buf.length = 0
          then ['.'] else (cleanLoop false false (c0 :: (b0 ++ ['/'])) (cleanInit false)).buf) = _
        simp only [List.cons_append, Bool.false_eq_true, if_false] at hre
        rw [hre, hb]; simp

theorem lastSepEnd_append_sep (x : List Char) :
    lastSepEnd (x ++ ['/']) (x ++ ['/']).length = (x ++ ['/']).length := by
  have h : (x ++ ['/']).length = x.length + 1 := by simp
  rw [h, lastSepEnd, List.getD_append_right _ _ _ _ (le_refl _)]
  simp [IsPathSeparator]

theorem dirChars_dirChars_slash (d : List Char) :
    dirChars (dirChars d ++ ['/']) = dirChars d := by
  unfold dirChars
  rw [lastSepEnd_append_sep, List.take_length]
  exact cleanChars_cleanChars_slash _

theorem Dir_Dir_slash (d : String) : Dir (Dir d ++ "/") = Dir d := by
  simp only [Dir, String.data_append]
  congr 1
  exact dirChars_dirChars_slash d.data

theorem sprintfChars_text_append (lit rest : List Char) (args : List String)
    (h : ∀ c ∈ lit, c ≠ '%') :
    sprintfChars .text (lit ++ rest) args = lit ++ sprintfChars .text rest args := by
  induction lit with
  | nil => rfl
  | cons c lit ih =>
    have hc : c ≠ '%' := h c (by simp)
    rw [List.cons_append, sprintfChars, if_neg hc, ih (fun x hx => h x (by simp [hx]))]
    rfl

theorem sprintfChars_row (rest : List Char) (a b : String) (args : List String) :
    sprintfChars .text (rowFormat ++ rest) (a :: b :: args)
      = rowChars (a, b) ++ sprintfChars .text rest args := by
  simp [rowFormat, sprintfChars, rowChars, Char.isDigit, pad]

theorem sprintfChars_rows (ps : List (String × String)) :
    ∀ p : String × String,
      sprintfChars .text
          (rowFormat ++ (List.replicate ps.length ('\n' :: rowFormat)).flatten)
          (p.1 :: p.2 :: ps.flatMap (fun q => [q.1, q.2]))
        = rowChars p ++ (ps.map fun q => '\n' :: rowChars q).flatten := by
  induction ps with
  | nil =>
    intro p
    have h := sprintfChars_row [] p.1 p.2 []
    simpa [sprintfChars, extraArgs] using h
  | cons q ps ih =>
    intro p
    have h := sprintfChars_row
      ('\n' :: (rowFormat ++ (List.replicate ps.length ('\n' :: rowFormat)).flatten)) p.1 p.2
      (q.1 :: q.2 :: ps.flatMap (fun q => [q.1, q.2]))
    have h2 := sprintfChars_text_append ['\n']
      (rowFormat ++ (List.replicate ps.length ('\n' :: rowFormat)).flatten)
      (q.1 :: q.2 :: ps.flatMap (fun q => [q.1, q.2])) (by simp)
    simp only [List.map_cons, List.flatten_cons, List.flatMap_cons, List.cons_append,
      List.nil_append, List.singleton_append, List.length_cons, List.replicate_succ] at h h2 ⊢
    rw [h, h2, ih q]

theorem intercalate_go_data (s : String) (l : List String) :
    ∀ acc : String, (String.intercalate.go acc s l).data
      = acc.data ++ (l.map fun a => s.data ++ a.data).flatten := by
  induction l with
  | nil => intro acc; simp [String.intercalate.go]
  | cons a l ih => intro acc; simp [String.intercalate.go, ih]

theorem intercalate_cons_data (s a : String) (l : List String) :
    (String.intercalate s (a :: l)).data
      = a.data ++ (l.map fun b => s.data ++ b.data).flatten :=
  intercalate_go_data s l a

theorem longRow_data (name value : String) :
    (longRow name value).data = rowChars (name, value) := by
  unfold longRow
  rw [String.data_append, String.data_append]
  show (name.data ++ List.replicate (36 - name.length) ' ') ++ [' '] ++ value.data = _
  simp only [rowChars, pad, if_true, String.length, List.append_assoc, List.singleton_append]

set_option maxRecDepth 100000 in
theorem longHeader_no_verb : ∀ c ∈ longHeader.data, c ≠ '%' := by
  decide

set_option maxRecDepth 100000 in
theorem createConfigLongFormat_data :
    createConfigLongFormat.data = longHeader.data ++ (rowFormat ++
      (List.replicate 17 ('\n' :: rowFormat)).flatten) := by
  decide

theorem Sprintf_listing (format : String) (p : String × String) (ps : List (String × String))
    (hformat : format.data = longHeader.data ++ (rowFormat ++
      (List.replicate ps.length ('\n' :: rowFormat)).flatten)) :
    Sprintf format (p.1 :: p.2 :: ps.flatMap (fun q => [q.1, q.2]))
      = longHeader ++ String.intercalate "\n"
          ((p :: ps).map fun q => longRow q.1 q.2) := by
  apply String.ext
  simp only [Sprintf, hformat, sprintfChars_text_append _ _ _ longHeader_no_verb,
    String.data_append, sprintfChars_rows, List.map_cons, intercalate_cons_data, longRow_data,
    List.map_map, Function.comp_def]
  rfl

theorem createConfigLongArgs_eq (names : EnvVariables) (data : ConfigTemplateValues) :
    createConfigLongArgs names data
      = (listing.map fun p => (p.1.get names, p.2.get data)).flatMap (fun q => [q.1, q.2]) := by
  rfl

theorem createConfigLong_eq (names : EnvVariables) (data : ConfigTemplateValues) :
    createConfigLong names data = longHeader ++ String.intercalate "\n"
      (listing.map fun p => longRow (p.1.get names) (p.2.get data)) := by
  have hlen : ((listing.tail).map fun p => (p.1.get names, p.2.get data)).length = 17 := rfl
  have h := Sprintf_listing createConfigLongFormat
    (EnvVarField.get names .ZitiHomeVarName, LeafField.get data .ZitiHome)
    ((listing.tail).map fun p => (p.1.get names, p.2.get data))
    (by rw [hlen]; exact createConfigLongFormat_data)
  rw [createConfigLong, createConfigLongArgs_eq]
  have hl : listing = listing.head (by decide) :: listing.tail := by decide
  rw [hl]
  simp only [List.map_cons, List.map_map, Function.comp_def, List.flatMap_cons] at h ⊢
  exact h

theorem Stat_snd (name : String) (w : World) :
    (Stat name w).2 = { w with trace := w.trace ++ [.stat name] } := by
  unfold Stat
  split
  · rfl
  · split <;> rfl

theorem Create_error (name : String) (w : World) (e : GoError)
    (h : (Create name w).1 = .error e) :
    (Create name w).2 = { w with trace := w.trace ++ [.create name] } ∧
      ∃ errno, e = .PathError "open" name errno := by
  unfold Create at h ⊢
  split
  · rename_i e0 _
    refine ⟨rfl, e0, ?_⟩
    simp_all
  · split
    · refine ⟨rfl, .EISDIR, ?_⟩
      simp_all
    · simp_all
    · simp_all

theorem Create_ok (name : String) (w : World) (f : File) (h : (Create name w).1 = .ok f) :
    f = .created w.files.length ∧
      ∃ key old, lookupPath w.fs name = .ok key ∧
        (Create name w).2 = { w with
          trace := w.trace ++ [.create name]
          fs := w.fs.truncate key old
          files := w.files ++ [{ name := name, key := key, offset := 0, closed := false }] } := by
  unfold Create at h ⊢
  split
  · simp_all
  · rename_i key hkey
    split
    · simp_all
    · rename_i old _
      refine ⟨by simp_all, key, old.length, hkey, rfl⟩
    · refine ⟨by simp_all, key, 0, hkey, rfl⟩

theorem truncate_node (fs : FileSys) (key : List String) (old : Nat) :
    (fs.truncate key old).node key = some (.file "") := by
  simp [FileSys.truncate]

theorem Write_Stdout (b : String) (w : World) :
    (Write .Stdout b w).2.fs = w.fs ∧ (Write .Stdout b w).2.files = w.files ∧
      (Write .Stdout b w).2.environ = w.environ ∧
      (Write .Stdout b w).2.stdoutClosed = w.stdoutClosed ∧
      (Write .Stdout b w).2.trace = w.trace ++ [.write .Stdout b] ∧
      (w.stdoutClosed = false →
        (Write .Stdout b w).1 = none ∧ (Write .Stdout b w).2.stdout = w.stdout ++ b) := by
  unfold Write
  cases h : w.stdoutClosed <;> simp [h]

theorem writeAll_Stdout (bs : List String) :
    ∀ w : World,
      (writeAll .Stdout bs w).2.fs = w.fs ∧ (writeAll .Stdout bs w).2.files = w.files ∧
      (writeAll .Stdout bs w).2.environ = w.environ ∧
      (writeAll .Stdout bs w).2.stdoutClosed = w.stdoutClosed ∧
      (∃ ws, (writeAll .Stdout bs w).2.trace = w.trace ++ ws ∧
        ∀ e ∈ ws, ∃ b, e = Event.write .Stdout b) ∧
      (w.stdoutClosed = false →
        (writeAll .Stdout bs w).1 = none ∧
          (writeAll .Stdout bs w).2.stdout = w.stdout ++ joinPieces bs) := by
  induction bs with
  | nil =>
    intro w
    refine ⟨rfl, rfl, rfl, rfl, ⟨[], by simp [writeAll], by simp⟩, fun _ => ⟨rfl, ?_⟩⟩
    apply String.ext
    simp [writeAll, joinPieces]
  | cons b bs ih =>
    intro w
    obtain ⟨h1, h2, h3, h4, h5, h6⟩ := Write_Stdout b w
    obtain ⟨i1, i2, i3, i4, ⟨ws, i5, i5b⟩, i6⟩ := ih (Write .Stdout b w).2
    rw [writeAll]
    cases hres : Write .Stdout b w with
    | mk r w1 =>
      rw [hres] at h1 h2 h3 h4 h5 h6 i1 i2 i3 i4 i5 i6
      simp only at h1 h2 h3 h4 h5 h6 i1 i2 i3 i4 i5 i6
      cases r with
      | some err =>
        simp only
        refine ⟨h1, h2, h3, h4, ⟨[.write .Stdout b], h5, ?_⟩, ?_⟩
        · intro e he
          exact ⟨b, by simpa using he⟩
        · intro hc
          have := (h6 hc).1
          simp at this
      | none =>
        simp only
        refine ⟨i1.trans h1, i2.trans h2, i3.trans h3, i4.trans h4,
          ⟨.write .Stdout b :: ws, ?_, ?_⟩, ?_⟩
        · rw [i5, h5]; simp
        · intro e he
          rcases List.mem_cons.mp he with rfl | he
          · exact ⟨b, rfl⟩
          · exact i5b e he
        · intro hc
          obtain ⟨j1, j2⟩ := i6 (h4.trans hc)
          refine ⟨j1, ?_⟩
          rw [j2, (h6 hc).2]
          apply String.ext
          simp [joinPieces]

theorem overwrite_end (old written : List Char) :
    overwrite old old.length written = old ++ written := by
  simp [overwrite]

theorem take_min_full (l : List Char) (room : Nat)
    (h : ¬ (l.take (min l.length room)).length < l.length) :
    l.take (min l.length room) = l := by
  have : l.length ≤ min l.length room := by
    simp only [List.length_take] at h
    omega
  exact List.take_of_length_le this

theorem Write_created (pre : List OpenFile) (o : OpenFile) (b : String) (w : World)
    (hfiles : w.files = pre ++ [o]) :
    (Write (.created pre.length) b w).2.trace = w.trace ++ [.write (.created pre.length) b] ∧
    (Write (.created pre.length) b w).2.stdout = w.stdout ∧
    (Write (.created pre.length) b w).2.stdoutClosed = w.stdoutClosed ∧
    (Write (.created pre.length) b w).2.environ = w.environ ∧
    (∃ off, (Write (.created pre.length) b w).2.files = pre ++ [{ o with offset := off }]) ∧
    (∀ e, (Write (.created pre.length) b w).1 = some e →
      ∃ errno, e = .PathError "write" o.name errno) ∧
    (∀ c : String, o.closed = false → w.fs.node o.key = some (.file c) → o.offset = c.length →
      (Write (.created pre.length) b w).1 = none →
      (Write (.created pre.length) b w).2.fs.node o.key = some (.file (c ++ b)) ∧
      (Write (.created pre.length) b w).2.files
        = pre ++ [{ o with offset := (c ++ b).length }]) := by
  have hget : w.files[pre.length]? = some o := by
    rw [hfiles]; exact List.getElem?_concat_length pre o
  have hset : ∀ x : OpenFile, w.files.set pre.length x = pre ++ [x] := by
    intro x
    rw [hfiles, List.set_append_right _ _ (le_refl _)]
    simp
  obtain ⟨name, key, offset, closed⟩ := o
  unfold Write
  simp only [hget]
  cases closed with
  | true =>
    refine ⟨rfl, rfl, rfl, rfl, ⟨offset, hfiles⟩, ?_, ?_⟩
    · intro e he
      exact ⟨.ErrClosed, by simpa using he.symm⟩
    · intro c hc
      exact Bool.noConfusion hc
  | false =>
    simp only [Bool.false_eq_true, if_false]
    cases hnode : w.fs.node key with
    | none =>
      refine ⟨rfl, rfl, rfl, rfl, ⟨offset, hfiles⟩, ?_, ?_⟩
      · intro e he
        exact ⟨.EBADF, by simpa using he.symm⟩
      · intro c _ hc
        exact Option.noConfusion hc
    | some nd =>
      cases nd with
      | dir =>
        refine ⟨rfl, rfl, rfl, rfl, ⟨offset, hfiles⟩, ?_, ?_⟩
        · intro e he
          exact ⟨.EBADF, by simpa using he.symm⟩
        · intro c _ hc
          simp at hc
      | file old =>
        simp only
        split
        · refine ⟨rfl, rfl, rfl, rfl, ⟨_, hset _⟩, ?_, ?_⟩
          · intro e he
            exact ⟨.ENOSPC, by simpa using he.symm⟩
          · intro c _ _ _ hnone
            simp at hnone
        · rename_i hfull
          refine ⟨rfl, rfl, rfl, rfl, ⟨_, hset _⟩, ?_, ?_⟩
          · intro e he
            simp at he
          · intro c _ hc hoff _
            have hcold : old = c := by injection (Option.some.inj hc)
            subst hcold
            subst hoff
            have hb : b.length = b.data.length := rfl
            have ho : old.length = old.data.length := rfl
            have htake := take_min_full b.data _ hfull
            simp only [hb] at htake ⊢
            simp only [htake]
            refine ⟨?_, ?_⟩
            · simp only [if_true, ho, overwrite_end]
              exact congrArg _ (congrArg _ (String.ext (by rw [String.data_append])))
            · rw [hset, String.length_append, hb]

theorem joinPieces_cons (b : String) (bs : List String) :
    joinPieces (b :: bs) = b ++ joinPieces bs := by
  apply String.ext
  simp [joinPieces]

theorem joinPieces_nil : joinPieces [] = "" := rfl

theorem writeAll_created (pre : List OpenFile) (bs : List String) :
    ∀ (o : OpenFile) (w : World), w.files = pre ++ [o] →
      (∃ ws, (writeAll (.created pre.length) bs w).2.trace = w.trace ++ ws ∧
        ∀ e ∈ ws, ∃ b, e = Event.write (.created pre.length) b) ∧
      (writeAll (.created pre.length) bs w).2.stdout = w.stdout ∧
      (writeAll (.created pre.length) bs w).2.stdoutClosed = w.stdoutClosed ∧
      (writeAll (.created pre.length) bs w).2.environ = w.environ ∧
      (∃ off, (writeAll (.created pre.length) bs w).2.files = pre ++ [{ o with offset := off }]) ∧
      (∀ e, (writeAll (.created pre.length) bs w).1 = some e →
        ∃ errno, e = .PathError "write" o.name errno) ∧
      (∀ c : String, o.closed = false → w.fs.node o.key = some (.file c) →
        o.offset = c.length → (writeAll (.created pre.length) bs w).1 = none →
        (writeAll (.created pre.length) bs w).2.fs.node o.key
          = some (.file (c ++ joinPieces bs))) := by
  induction bs with
  | nil =>
    intro o w hfiles
    refine ⟨⟨[], by simp [writeAll], by simp⟩, rfl, rfl, rfl, ⟨o.offset, hfiles⟩, ?_, ?_⟩
    · intro e he
      simp [writeAll] at he
    · intro c _ hnode _ _
      simpa [writeAll, joinPieces_nil] using hnode
  | cons b bs ih =>
    intro o w hfiles
    obtain ⟨h1, h2, h3, h4, ⟨off, h5⟩, h6, h7⟩ := Write_created pre o b w hfiles
    obtain ⟨⟨ws, i1, i1b⟩, i2, i3, i4, ⟨off2, i5⟩, i6, i7⟩ :=
      ih { o with offset := off } (Write (.created pre.length) b w).2 h5
    rw [writeAll]
    cases hres : Write (.created pre.length) b w with
    | mk r w1 =>
      rw [hres] at h1 h2 h3 h4 h5 h6 h7 i1 i2 i3 i4 i5 i6 i7
      simp only at h1 h2 h3 h4 h5 h6 h7 i1 i2 i3 i4 i5 i6 i7
      cases r with
      | some err =>
        simp only
        refine ⟨⟨[.write (.created pre.length) b], h1, ?_⟩, h2, h3, h4, ⟨off, h5⟩, ?_, ?_⟩
        · intro e he
          exact ⟨b, by simpa using he⟩
        · intro e he
          exact h6 e (by simpa using he)
        · intro c _ _ _ hnone
          simp at hnone
      | none =>
        simp only
        refine ⟨⟨.write (.created pre.length) b :: ws, ?_, ?_⟩, i2.trans h2, i3.trans h3,
          i4.trans h4, ⟨off2, i5⟩, i6, ?_⟩
        · rw [i1, h1]; simp
        · intro e he
          rcases List.mem_cons.mp he with rfl | he
          · exact ⟨b, rfl⟩
          · exact i1b e he
        · intro c hclosed hnode hoff hnone
          obtain ⟨j1, j2⟩ := h7 c hclosed hnode hoff rfl
          have hoff2 : off = (c ++ b).length := by
            have := List.append_cancel_left (h5.symm.trans j2)
            simp at this
            rw [String.length_append]
            exact this
          have := i7 (c ++ b) hclosed j1 hoff2 hnone
          rw [this, joinPieces_cons, String.append_assoc]

theorem Close_Stdout (w : World) :
    (Close .Stdout w).2.fs = w.fs ∧ (Close .Stdout w).2.files = w.files ∧
      (Close .Stdout w).2.environ = w.environ ∧ (Close .Stdout w).2.stdout = w.stdout ∧
      (Close .Stdout w).2.stdoutClosed = true ∧
      (Close .Stdout w).2.trace = w.trace ++ [.close .Stdout] := by
  unfold Close
  cases h : w.stdoutClosed <;> simp [h]

theorem runExecute_Stdout (tmpl : Template) (options : CreateConfigEnvironmentOptions)
    (w : World) :
    (runExecute tmpl .Stdout options w).2.fs = w.fs ∧
      (runExecute tmpl .Stdout options w).2.files = w.files ∧
      (runExecute tmpl .Stdout options w).2.environ = w.environ ∧
      (runExecute tmpl .Stdout options w).2.stdoutClosed = true ∧
      (∃ es, (runExecute tmpl .Stdout options w).2.trace = w.trace ++ es ++ [.close .Stdout] ∧
        ∀ e ∈ es, (∃ b, e = Event.write .Stdout b) ∨ ∃ m, e = Event.debugf m) ∧
      (∃ err, (runExecute tmpl .Stdout options w).1 = .returned err) ∧
      ((tmpl.exec options).2 = none → w.stdoutClosed = false →
        (runExecute tmpl .Stdout options w).1 = .returned none ∧
        (runExecute tmpl .Stdout options w).2.stdout
          = w.stdout ++ joinPieces (tmpl.exec options).1) := by
  obtain ⟨h1, h2, h3, h4, ⟨ws, h5, h5b⟩, h6⟩ := writeAll_Stdout (tmpl.exec options).1 w
  unfold runExecute Execute
  cases hres : writeAll .Stdout (tmpl.exec options).1 w with
  | mk r w1 =>
    rw [hres] at h1 h2 h3 h4 h5 h6
    simp only at h1 h2 h3 h4 h5 h6
    cases r with
    | some err =>
      simp only
      obtain ⟨c1, c2, c3, c4, c5, c6⟩ := Close_Stdout w1
      refine ⟨c1.trans h1, c2.trans h2, c3.trans h3, c5, ⟨ws, by rw [c6, h5], ?_⟩, ⟨_, rfl⟩, ?_⟩
      · intro e he
        exact Or.inl (h5b e he)
      · intro _ hc
        have := (h6 hc).1
        simp at this
    | none =>
      simp only
      cases hexec : (tmpl.exec options).2 with
      | some err =>
        simp only
        obtain ⟨c1, c2, c3, c4, c5, c6⟩ := Close_Stdout w1
        refine ⟨c1.trans h1, c2.trans h2, c3.trans h3, c5, ⟨ws, by rw [c6, h5], ?_⟩, ⟨_, rfl⟩, ?_⟩
        · intro e he
          exact Or.inl (h5b e he)
        · intro hn
          simp at hn
      | none =>
        simp only
        obtain ⟨c1, c2, c3, c4, c5, c6⟩ := Close_Stdout (Debugf (Sprintf
          "Environment configuration file generated successfully and written to: %s"
          [options.Output]) w1)
        refine ⟨c1.trans h1, c2.trans h2, c3.trans h3, c5,
          ⟨ws ++ [.debugf (Sprintf
            "Environment configuration file generated successfully and written to: %s"
            [options.Output])], ?_, ?_⟩, ⟨_, rfl⟩, ?_⟩
        · rw [c6]
          simp [Debugf, h5]
        · intro e he
          rcases List.mem_append.mp he with he | he
          · exact Or.inl (h5b e he)
          · exact Or.inr ⟨_, by simpa using he⟩
        · intro _ hc
          refine ⟨by trivial, ?_⟩
          rw [c4]
          exact (h6 hc).2

theorem run_parse_error (pkg : Package) (options : CreateConfigEnvironmentOptions) (w : World)
    (err : GoError) (h : pkg.Parse pkg.environmentConfigTemplate = .error err) :
    run pkg options w = (.returned (some err), w) := by
  simp [run, h]

theorem run_stdout (pkg : Package) (options : CreateConfigEnvironmentOptions) (w : World)
    (tmpl : Template) (h : pkg.Parse pkg.environmentConfigTemplate = .ok tmpl)
    (hd : ToLower options.Output = "stdout") :
    run pkg options w = runExecute tmpl .Stdout options w := by
  simp [run, h, hd]

/-- C1: when the lower-cased destination is `stdout`, `run` leaves the file system and the
created files as they were and makes no call to the file system (no `os.Stat`, no `os.Create`, no
write to a created file); and when the template parses and executes without error and the
standard output is open, `run` returns nil and the standard output has received the rendered
bytes. -/
theorem run_stdout_touches_no_file (pkg : Package) (options : CreateConfigEnvironmentOptions)
    (w : World) (hd : ToLower options.Output = "stdout") :
    (run pkg options w).2.fs = w.fs ∧ (run pkg options w).2.files = w.files ∧
      (∃ es, (run pkg options w).2.trace = w.trace ++ es ∧
        ∀ e ∈ es, e.touchesFileSystem = false) ∧
      (∀ tmpl, pkg.Parse pkg.environmentConfigTemplate = .ok tmpl →
        (tmpl.exec options).2 = none → w.stdoutClosed = false →
        (run pkg options w).1 = .returned none ∧
        (run pkg options w).2.stdout = w.stdout ++ joinPieces (tmpl.exec options).1) := by
  cases hp : pkg.Parse pkg.environmentConfigTemplate with
  | error err =>
    rw [run_parse_error pkg options w err hp]
    exact ⟨rfl, rfl, ⟨[], by simp, by simp⟩, fun tmpl ht => by simp at ht⟩
  | ok tmpl =>
    rw [run_stdout pkg options w tmpl hp hd]
    obtain ⟨h1, h2, -, -, ⟨es, h5, h5b⟩, -, h7⟩ := runExecute_Stdout tmpl options w
    refine ⟨h1, h2, ⟨es ++ [.close .Stdout], by rw [h5, List.append_assoc], ?_⟩, ?_⟩
    · intro e he
      rcases List.mem_append.mp he with he | he
      · rcases h5b e he with ⟨b, rfl⟩ | ⟨m, rfl⟩ <;> rfl
      · have : e = .close .Stdout := by simpa using he
        rw [this]; rfl
    · intro tmpl2 ht
      have : tmpl2 = tmpl := by
        have := ht.symm
        injection this
      subst this
      exact h7

/-- C10: when the lower-cased destination is `stdout` and the template parses, `run` returns
(with or without an error of the execution) and has closed the standard output by then: the
last call it made is `os.Stdout.Close()`, and the standard output is closed afterwards. -/
theorem run_stdout_closes_stdout (pkg : Package) (options : CreateConfigEnvironmentOptions)
    (w : World) (tmpl : Template) (hp : pkg.Parse pkg.environmentConfigTemplate = .ok tmpl)
    (hd : ToLower options.Output = "stdout") :
    (∃ err, (run pkg options w).1 = .returned err) ∧
      (run pkg options w).2.stdoutClosed = true ∧
      (∃ es, (run pkg options w).2.trace = w.trace ++ es ++ [.close .Stdout]) ∧
      ((tmpl.exec options).2 = none → w.stdoutClosed = false →
        (run pkg options w).1 = .returned none) := by
  rw [run_stdout pkg options w tmpl hp hd]
  obtain ⟨-, -, -, h4, ⟨es, h5, -⟩, h6, h7⟩ := runExecute_Stdout tmpl options w
  exact ⟨h6, h4, ⟨es, h5⟩, fun a b => (h7 a b).1⟩

theorem IsNotExist_Stat (name : String) (w : World) :
    IsNotExist (errOf (Stat name w).1) = w.fs.missing name := by
  unfold Stat FileSys.missing
  cases h : lookupPath w.fs name with
  | error e => cases e <;> rfl
  | ok key =>
    simp only
    cases hn : w.fs.node key with
    | none => rfl
    | some nd => cases nd <;> rfl

theorem Create_fst_trace (name : String) (w : World) (t : List Event) :
    (Create name { w with trace := t }).1 = (Create name w).1 := by
  unfold Create
  simp only
  split
  · rfl
  · split <;> rfl

theorem Sprintf_fatal (x : String) :
    Sprintf "Provided path: [%s] does not exist\n" [x]
      = "Provided path: [" ++ x ++ "] does not exist\n" := by
  apply String.ext
  simp [Sprintf, sprintfChars, pad, extraArgs, Char.isDigit]

theorem Sprintf_create (x : String) :
    Sprintf "unable to create config file: %s" [x] = "unable to create config file: " ++ x := by
  apply String.ext
  simp [Sprintf, sprintfChars, pad, extraArgs, Char.isDigit]

theorem Close_created (pre : List OpenFile) (o : OpenFile) (w : World)
    (hfiles : w.files = pre ++ [o]) (hopen : o.closed = false) :
    (Close (.created pre.length) w).2.files = pre ++ [{ o with closed := true }] ∧
      (Close (.created pre.length) w).2.fs = w.fs ∧
      (Close (.created pre.length) w).2.stdout = w.stdout ∧
      (Close (.created pre.length) w).2.stdoutClosed = w.stdoutClosed ∧
      (Close (.created pre.length) w).2.environ = w.environ ∧
      (Close (.created pre.length) w).2.trace = w.trace ++ [.close (.created pre.length)] := by
  have hget : w.files[pre.length]? = some o := by
    rw [hfiles]; exact List.getElem?_concat_length pre o
  have hset : ∀ x : OpenFile, w.files.set pre.length x = pre ++ [x] := by
    intro x
    rw [hfiles, List.set_append_right _ _ (le_refl _)]
    simp
  unfold Close
  simp only [hget, hopen, Bool.false_eq_true, if_false, hset]
  exact ⟨trivial, trivial, trivial, trivial, trivial, trivial⟩

theorem runExecute_created (tmpl : Template) (options : CreateConfigEnvironmentOptions)
    (pre : List OpenFile) (o : OpenFile) (w : World) (hfiles : w.files = pre ++ [o])
    (hopen : o.closed = false) :
    (∃ off, (runExecute tmpl (.created pre.length) options w).2.files
        = pre ++ [{ o with offset := off, closed := true }]) ∧
      (runExecute tmpl (.created pre.length) options w).2.stdout = w.stdout ∧
      (runExecute tmpl (.created pre.length) options w).2.stdoutClosed = w.stdoutClosed ∧
      (runExecute tmpl (.created pre.length) options w).2.environ = w.environ ∧
      (∃ es, (runExecute tmpl (.created pre.length) options w).2.trace
          = w.trace ++ es ++ [.close (.created pre.length)] ∧
        ∀ e ∈ es, (∃ b, e = Event.write (.created pre.length) b) ∨ ∃ m, e = Event.debugf m) ∧
      (∃ err, (runExecute tmpl (.created pre.length) options w).1 = .returned err) ∧
      (∀ e, (writeAll (.created pre.length) (tmpl.exec options).1 w).1 = some e →
        (runExecute tmpl (.created pre.length) options w).1
            = .returned (some (Wrap e "unable to execute template")) ∧
          ∃ errno, e = .PathError "write" o.name errno) ∧
      (∀ c : String, w.fs.node o.key = some (.file c) → o.offset = c.length →
        (runExecute tmpl (.created pre.length) options w).1 = .returned none →
        (runExecute tmpl (.created pre.length) options w).2.fs.node o.key
          = some (.file (c ++ joinPieces (tmpl.exec options).1))) := by
  obtain ⟨⟨ws, h1, h1b⟩, h2, h3, h4, ⟨off, h5⟩, h6, h7⟩ :=
    writeAll_created pre (tmpl.exec options).1 o w hfiles
  unfold runExecute Execute
  cases hres : writeAll (.created pre.length) (tmpl.exec options).1 w with
  | mk r w1 =>
    rw [hres] at h1 h2 h3 h4 h5 h6 h7
    simp only at h1 h2 h3 h4 h5 h6 h7
    cases r with
    | some err =>
      simp only
      obtain ⟨c1, c2, c3, c4, c5, c6⟩ :=
        Close_created pre { o with offset := off } w1 h5 hopen
      refine ⟨⟨off, c1⟩, c3.trans h2, c4.trans h3, c5.trans h4, ⟨ws, by rw [c6, h1], ?_⟩,
        ⟨_, rfl⟩, ?_, ?_⟩
      · intro e he
        exact Or.inl (h1b e he)
      · intro e he
        have : err = e := by simpa using he
        subst this
        exact ⟨rfl, h6 err rfl⟩
      · intro c _ _ hret
        simp at hret
    | none =>
      simp only
      cases hexec : (tmpl.exec options).2 with
      | some err =>
        simp only
        obtain ⟨c1, c2, c3, c4, c5, c6⟩ :=
          Close_created pre { o with offset := off } w1 h5 hopen
        refine ⟨⟨off, c1⟩, c3.trans h2, c4.trans h3, c5.trans h4, ⟨ws, by rw [c6, h1], ?_⟩,
          ⟨_, rfl⟩, ?_, ?_⟩
        · intro e he
          exact Or.inl (h1b e he)
        · intro e he
          simp at he
        · intro c _ _ hret
          simp at hret
      | none =>
        simp only
        obtain ⟨c1, c2, c3, c4, c5, c6⟩ :=
          Close_created pre { o with offset := off } (Debugf (Sprintf
            "Environment configuration file generated successfully and written to: %s"
            [options.Output]) w1) h5 hopen
        refine ⟨⟨off, c1⟩, c3.trans h2, c4.trans h3, c5.trans h4,
          ⟨ws ++ [.debugf (Sprintf
            "Environment configuration file generated successfully and written to: %s"
            [options.Output])], ?_, ?_⟩, ⟨_, rfl⟩, ?_, ?_⟩
        · rw [c6]
          simp [Debugf, h1]
        · intro e he
          rcases List.mem_append.mp he with he | he
          · exact Or.inl (h1b e he)
          · exact Or.inr ⟨_, by simpa using he⟩
        · intro e he
          simp at he
        · intro c hnode hoff _
          rw [c2]
          exact h7 c hopen hnode hoff rfl

theorem run_file (pkg : Package) (options : CreateConfigEnvironmentOptions) (w : World)
    (tmpl : Template) (hp : pkg.Parse pkg.environmentConfigTemplate = .ok tmpl)
    (hd : ToLower options.Output ≠ "stdout") :
    run pkg options w =
      if w.fs.missing (Dir options.Output) = true then
        (.exited 1,
          Fatalf ("Provided path: [" ++ (Dir options.Output ++ "/") ++ "] does not exist\n")
            (afterStat options w))
      else
        match (Create options.Output (afterStat options w)).1 with
        | .error err =>
          (.returned (some (.withMessage err ("unable to create config file: " ++ options.Output))),
            afterCreate options w)
        | .ok f => runExecute tmpl f options (afterCreate options w) := by
  simp only [run, hp, hd, ne_eq, not_false_eq_true, if_true, Dir_Dir_slash, IsNotExist_Stat,
    Stat_snd, Sprintf_fatal, Wrapf, Sprintf_create, afterStat, afterCreate]

theorem run_file_missing (pkg : Package) (options : CreateConfigEnvironmentOptions) (w : World)
    (tmpl : Template) (hp : pkg.Parse pkg.environmentConfigTemplate = .ok tmpl)
    (hd : ToLower options.Output ≠ "stdout")
    (hmissing : w.fs.missing (Dir options.Output) = true) :
    run pkg options w =
      (.exited 1,
        Fatalf ("Provided path: [" ++ (Dir options.Output ++ "/") ++ "] does not exist\n")
          (afterStat options w)) := by
  rw [run_file pkg options w tmpl hp hd, if_pos hmissing]

theorem run_file_create_error (pkg : Package) (options : CreateConfigEnvironmentOptions)
    (w : World) (tmpl : Template) (hp : pkg.Parse pkg.environmentConfigTemplate = .ok tmpl)
    (hd : ToLower options.Output ≠ "stdout")
    (hthere : w.fs.missing (Dir options.Output) = false) (err : GoError)
    (hc : (Create options.Output w).1 = .error err) :
    run pkg options w =
      (.returned (some (.withMessage err ("unable to create config file: " ++ options.Output))),
        { w with trace := w.trace ++ [.stat (Dir options.Output), .create options.Output,
            .debugf (Sprintf "Created output file: %s" [options.Output])] }) := by
  have hc2 : (Create options.Output (afterStat options w)).1 = .error err := by
    rw [afterStat, Create_fst_trace]; exact hc
  rw [run_file pkg options w tmpl hp hd, hthere]
  simp only [Bool.false_eq_true, if_false]
  rw [hc2]
  simp only
  rw [afterCreate, (Create_error _ _ _ hc2).1]
  simp only [Debugf, afterStat, List.append_assoc, List.cons_append, List.nil_append]

theorem run_file_create_ok (pkg : Package) (options : CreateConfigEnvironmentOptions)
    (w : World) (tmpl : Template) (hp : pkg.Parse pkg.environmentConfigTemplate = .ok tmpl)
    (hd : ToLower options.Output ≠ "stdout")
    (hthere : w.fs.missing (Dir options.Output) = false) (f : File)
    (hc : (Create options.Output w).1 = .ok f) :
    f = .created w.files.length ∧
      ∃ key old, lookupPath w.fs options.Output = .ok key ∧
        run pkg options w = runExecute tmpl (.created w.files.length) options
          { w with
            trace := w.trace ++ [.stat (Dir options.Output), .create options.Output,
              .debugf (Sprintf "Created output file: %s" [options.Output])]
            fs := w.fs.truncate key old
            files := w.files ++
              [{ name := options.Output, key := key, offset := 0, closed := false }] } := by
  have hc2 : (Create options.Output (afterStat options w)).1 = .ok f := by
    rw [afterStat, Create_fst_trace]; exact hc
  obtain ⟨hf, key, old, hkey, hw⟩ := Create_ok _ _ _ hc2
  refine ⟨hf, key, old, hkey, ?_⟩
  rw [run_file pkg options w tmpl hp hd, hthere]
  simp only [Bool.false_eq_true, if_false]
  rw [hc2]
  simp only
  rw [afterCreate, hw]
  subst hf
  simp only [Debugf, afterStat, List.append_assoc, List.cons_append, List.nil_append]

theorem Stat_environ (name : String) (w : World) (e : List (String × String)) :
    Stat name { w with environ := e }
      = ((Stat name w).1, { (Stat name w).2 with environ := e }) := by
  unfold Stat
  simp only
  split
  · rfl
  · split <;> rfl

theorem Create_environ (name : String) (w : World) (e : List (String × String)) :
    Create name { w with environ := e }
      = ((Create name w).1, { (Create name w).2 with environ := e }) := by
  unfold Create
  simp only
  split
  · rfl
  · split <;> rfl

theorem Write_environ (f : File) (b : String) (w : World) (e : List (String × String)) :
    Write f b { w with environ := e }
      = ((Write f b w).1, { (Write f b w).2 with environ := e }) := by
  unfold Write
  cases f with
  | Stdout =>
    simp only
    split <;> rfl
  | created id =>
    simp only
    split
    · rfl
    · split
      · rfl
      · split
        · split <;> rfl
        · rfl

theorem Close_environ (f : File) (w : World) (e : List (String × String)) :
    Close f { w with environ := e }
      = ((Close f w).1, { (Close f w).2 with environ := e }) := by
  unfold Close
  cases f with
  | Stdout =>
    simp only
    split <;> rfl
  | created id =>
    simp only
    split
    · rfl
    · split <;> rfl

theorem writeAll_environ (f : File) (bs : List String) (e : List (String × String)) :
    ∀ w : World, writeAll f bs { w with environ := e }
      = ((writeAll f bs w).1, { (writeAll f bs w).2 with environ := e }) := by
  induction bs with
  | nil => intro w; rfl
  | cons b bs ih =>
    intro w
    rw [writeAll, writeAll, Write_environ]
    cases hres : Write f b w with
    | mk r w1 =>
      cases r with
      | some err => rfl
      | none => exact ih w1

theorem runExecute_environ (tmpl : Template) (f : File)
    (options : CreateConfigEnvironmentOptions) (w : World) (e : List (String × String)) :
    runExecute tmpl f options { w with environ := e }
      = ((runExecute tmpl f options w).1, { (runExecute tmpl f options w).2 with environ := e }) := by
  unfold runExecute Execute
  rw [writeAll_environ]
  cases hres : writeAll f (tmpl.exec options).1 w with
  | mk r w1 =>
    cases r with
    | some err =>
      simp only
      rw [Close_environ]
    | none =>
      simp only
      cases (tmpl.exec options).2 with
      | some err =>
        simp only
        rw [Close_environ]
      | none =>
        simp only
        have : Debugf (Sprintf
            "Environment configuration file generated successfully and written to: %s"
            [options.Output]) { w1 with environ := e }
            = { Debugf (Sprintf
              "Environment configuration file generated successfully and written to: %s"
              [options.Output]) w1 with environ := e } := rfl
        rw [this, Close_environ]

theorem run_environ (pkg : Package) (options : CreateConfigEnvironmentOptions) (w : World)
    (e : List (String × String)) :
    run pkg options { w with environ := e }
      = ((run pkg options w).1, { (run pkg options w).2 with environ := e }) := by
  unfold run
  cases pkg.Parse pkg.environmentConfigTemplate with
  | error err => rfl
  | ok tmpl =>
    simp only
    split
    · rw [Stat_environ]
      simp only
      split
      · rfl
      · have hd : ∀ (m : String) (w0 : World), Debugf m { w0 with environ := e }
            = { Debugf m w0 with environ := e } := fun _ _ => rfl
        rw [Create_environ]
        simp only
        rw [hd]
        cases (Create options.Output (Stat (Dir (Dir options.Output ++ "/")) w).2).1 with
        | error err => rfl
        | ok f =>
          simp only
          rw [runExecute_environ]
    · rw [runExecute_environ]

theorem startsWith_self_append (d rest : List Char) : startsWith d (d ++ rest) = true := by
  induction d with
  | nil => rfl
  | cons c d ih => simp [startsWith, ih]

theorem containsChars_append_self (a d : List Char) : containsChars d (a ++ d) = true := by
  induction a with
  | nil =>
    cases d with
    | nil => rfl
    | cons c d =>
      have := startsWith_self_append (c :: d) []
      simp only [List.append_nil] at this
      simp [containsChars, this]
  | cons c a ih => simp [containsChars, ih]

theorem Contains_append_self (a d : String) : Contains (a ++ d) d = true := by
  simp only [Contains, String.data_append]
  exact containsChars_append_self a.data d.data

/-- C2 (the code at the failing input): with the destination `/no/such/dir/out.yml` on a file
system that has no directory `/no`, `run` does not reach a return statement: `logrus.Fatalf`
ends the process with status 1, after `os.Stat` and the fatal line. -/
theorem run_missing_directory_exits_process :
    (run (pkgHostname namesExample) (optionsFor namesExample "localhost" "/no/such/dir/out.yml")
        (worldOn (fsTmp "" 0) [])).1 = .exited 1 ∧
      (run (pkgHostname namesExample) (optionsFor namesExample "localhost" "/no/such/dir/out.yml")
        (worldOn (fsTmp "" 0) [])).2.trace
        = [.stat "/no/such/dir", .fatalf "Provided path: [/no/such/dir/] does not exist\n",
            .exit 1] := by
  decide

/-- C3 (counterexample): the destination `/tmp/out.yml/x/y` where `/tmp/out.yml` is a regular
file. The parent directory `/tmp/out.yml/x` does not exist, but `os.Stat` fails on it with
`ENOTDIR`, which `os.IsNotExist` does not accept: `os.Create` is reached, and `run` returns the
error of `os.Create`, not the missing-directory failure. -/
theorem run_parent_under_file_reaches_create :
    (fsTmp "old" 10).hasDir (Dir "/tmp/out.yml/x/y") = false ∧
      (fsTmp "old" 10).missing (Dir "/tmp/out.yml/x/y") = false ∧
      Event.create "/tmp/out.yml/x/y" ∈
        (run (pkgHostname namesExample) (optionsFor namesExample "localhost" "/tmp/out.yml/x/y")
          (worldOn (fsTmp "old" 10) [])).2.trace ∧
      (run (pkgHostname namesExample) (optionsFor namesExample "localhost" "/tmp/out.yml/x/y")
          (worldOn (fsTmp "old" 10) [])).1
        = .returned (some (.withMessage (.PathError "open" "/tmp/out.yml/x/y" .ENOTDIR)
            "unable to create config file: /tmp/out.yml/x/y")) := by
  decide

/-- C3 (amended): for a destination that is not the `stdout` sentinel and whose parent directory
`filepath.Dir(options.Output)` is reported as not existing by `os.Stat`, `run` does not
succeed, and the one call it makes to the file system is that `os.Stat`: neither `os.Create`
nor a write of the template is reached, and the file system, the open files and the standard
output are as before. -/
theorem run_missing_directory_creates_nothing (pkg : Package)
    (options : CreateConfigEnvironmentOptions) (w : World) (tmpl : Template)
    (hp : pkg.Parse pkg.environmentConfigTemplate = .ok tmpl)
    (hd : ToLower options.Output ≠ "stdout")
    (hmissing : w.fs.missing (Dir options.Output) = true) :
    (run pkg options w).1 ≠ .returned none ∧
      (∃ es, (run pkg options w).2.trace = w.trace ++ Event.stat (Dir options.Output) :: es ∧
        ∀ e ∈ es, e.touchesFileSystem = false) ∧
      (run pkg options w).2.fs = w.fs ∧ (run pkg options w).2.files = w.files ∧
      (run pkg options w).2.stdout = w.stdout := by
  rw [run_file_missing pkg options w tmpl hp hd hmissing]
  refine ⟨by simp, ⟨[.fatalf ("Provided path: [" ++ (Dir options.Output ++ "/")
    ++ "] does not exist\n"), .exit 1], ?_, ?_⟩, rfl, rfl, rfl⟩
  · simp [Fatalf, afterStat]
  · intro e he
    simp at he
    rcases he with rfl | rfl <;> rfl

/-- The witness of C3 (amended): the destination `/no/such/dir/out.yml`. -/
theorem run_missing_directory_creates_nothing_witness :
    (fsTmp "old" 10).missing (Dir "/no/such/dir/out.yml") = true ∧
      (run (pkgHostname namesExample) (optionsFor namesExample "localhost" "/no/such/dir/out.yml")
        (worldOn (fsTmp "old" 10) [])).1 ≠ .returned none ∧
      (run (pkgHostname namesExample) (optionsFor namesExample "localhost" "/no/such/dir/out.yml")
        (worldOn (fsTmp "old" 10) [])).2.fs = fsTmp "old" 10 :=
  ⟨by decide,
    (run_missing_directory_creates_nothing (pkgHostname namesExample)
      (optionsFor namesExample "localhost" "/no/such/dir/out.yml") (worldOn (fsTmp "old" 10) [])
      hostnameTemplate rfl (by decide) (by decide)).1,
    (run_missing_directory_creates_nothing (pkgHostname namesExample)
      (optionsFor namesExample "localhost" "/no/such/dir/out.yml") (worldOn (fsTmp "old" 10) [])
      hostnameTemplate rfl (by decide) (by decide)).2.2.1⟩

theorem run_file_returned_none (pkg : Package) (options : CreateConfigEnvironmentOptions)
    (w : World) (tmpl : Template) (hp : pkg.Parse pkg.environmentConfigTemplate = .ok tmpl)
    (hd : ToLower options.Output ≠ "stdout")
    (hok : (run pkg options w).1 = .returned none) :
    w.fs.missing (Dir options.Output) = false ∧
      (Create options.Output w).1 = .ok (.created w.files.length) := by
  cases hm : w.fs.missing (Dir options.Output) with
  | true =>
    rw [run_file_missing pkg options w tmpl hp hd hm] at hok
    simp at hok
  | false =>
    refine ⟨rfl, ?_⟩
    cases hc : (Create options.Output w).1 with
    | error err =>
      rw [run_file_create_error pkg options w tmpl hp hd hm err hc] at hok
      simp at hok
    | ok f =>
      rw [(run_file_create_ok pkg options w tmpl hp hd hm f hc).1]

/-- C4: for a destination that is not the `stdout` sentinel, when `run` returns nil the
destination names a regular file whose content is exactly the bytes the template produced for
the options, whatever the file system held before (no file there, or a file with any content,
also a longer one): `os.Create` truncates and the writes start at offset 0. -/
theorem run_success_overwrites (pkg : Package) (options : CreateConfigEnvironmentOptions)
    (w : World) (tmpl : Template) (hp : pkg.Parse pkg.environmentConfigTemplate = .ok tmpl)
    (hd : ToLower options.Output ≠ "stdout")
    (hok : (run pkg options w).1 = .returned none) :
    ∃ key, lookupPath w.fs options.Output = .ok key ∧
      (run pkg options w).2.fs.node key
        = some (.file (joinPieces (tmpl.exec options).1)) := by
  obtain ⟨hm, hc⟩ := run_file_returned_none pkg options w tmpl hp hd hok
  obtain ⟨-, key, old, hkey, hrun⟩ := run_file_create_ok pkg options w tmpl hp hd hm _ hc
  refine ⟨key, hkey, ?_⟩
  rw [hrun] at hok ⊢
  have h := (runExecute_created tmpl options w.files
    { name := options.Output, key := key, offset := 0, closed := false }
    { w with
      trace := w.trace ++ [.stat (Dir options.Output), .create options.Output,
        .debugf (Sprintf "Created output file: %s" [options.Output])]
      fs := w.fs.truncate key old
      files := w.files ++
        [{ name := options.Output, key := key, offset := 0, closed := false }] }
    rfl rfl).2.2.2.2.2.2.2 "" (truncate_node w.fs key old) rfl hok
  rw [h]
  exact congrArg _ (congrArg _ (String.ext (by simp)))

/-- The witness of C4: the file `/tmp/out.yml` holds 27 bytes before the run and the 19 bytes
`hostname: localhost` after it. -/
theorem run_success_overwrites_witness :
    (run (pkgHostname namesExample) (optionsFor namesExample "localhost" "/tmp/out.yml")
        (worldOn (fsTmp "old old old old old old old" 100) [])).1 = .returned none ∧
      (fsTmp "old old old old old old old" 100).node ["tmp", "out.yml"]
        = some (.file "old old old old old old old") ∧
      (run (pkgHostname namesExample) (optionsFor namesExample "localhost" "/tmp/out.yml")
        (worldOn (fsTmp "old old old old old old old" 100) [])).2.fs.node ["tmp", "out.yml"]
        = some (.file "hostname: localhost") ∧
      ∃ key, lookupPath (fsTmp "old old old old old old old" 100) "/tmp/out.yml" = .ok key ∧
        (run (pkgHostname namesExample) (optionsFor namesExample "localhost" "/tmp/out.yml")
          (worldOn (fsTmp "old old old old old old old" 100) [])).2.fs.node key
          = some (.file (joinPieces
              (hostnameTemplate.exec (optionsFor namesExample "localhost" "/tmp/out.yml")).1)) :=
  ⟨by decide, by decide, by decide,
    run_success_overwrites (pkgHostname namesExample)
      (optionsFor namesExample "localhost" "/tmp/out.yml")
      (worldOn (fsTmp "old old old old old old old" 100) []) hostnameTemplate rfl (by decide)
      (by decide)⟩

/-- C6 (counterexample): the destination `/tmp/out.yml` with 13 bytes of space for 19 bytes of
output. The write fails with `ENOSPC`, `run` returns the error wrapped with the context
`unable to execute template`, and that context does not contain the destination path. -/
theorem run_write_failure_context_lacks_path :
    (run (pkgHostname namesExample) (optionsFor namesExample "localhost" "/tmp/out.yml")
        (worldOn (fsTmp "old" 10) [])).1
      = .returned (some (.withMessage (.PathError "write" "/tmp/out.yml" .ENOSPC)
          "unable to execute template")) ∧
      Contains "unable to execute template" "/tmp/out.yml" = false := by
  decide

/-- C6 (amended): once the parent directory is there, a failure of `os.Create` is returned
wrapped with the context `unable to create config file: <destination>`, which contains the
destination path; a failure of a write of the rendered bytes is returned wrapped with the fixed
context `unable to execute template`, and the underlying error, kept as the cause, is the
`PathError` of the write with the name of the destination. -/
theorem run_failure_context (pkg : Package) (options : CreateConfigEnvironmentOptions)
    (w : World) (tmpl : Template) (hp : pkg.Parse pkg.environmentConfigTemplate = .ok tmpl)
    (hd : ToLower options.Output ≠ "stdout")
    (hthere : w.fs.missing (Dir options.Output) = false) :
    (∀ err, (Create options.Output w).1 = .error err →
        (run pkg options w).1
            = .returned (some (.withMessage err
                ("unable to create config file: " ++ options.Output))) ∧
          Contains ("unable to create config file: " ++ options.Output) options.Output = true) ∧
      (∀ f err, (Create options.Output w).1 = .ok f →
        (writeAll f (tmpl.exec options).1 (afterCreate options w)).1 = some err →
        (run pkg options w).1 = .returned (some (.withMessage err "unable to execute template")) ∧
          ∃ errno, err = .PathError "write" options.Output errno) := by
  refine ⟨?_, ?_⟩
  · intro err hc
    rw [run_file_create_error pkg options w tmpl hp hd hthere err hc]
    exact ⟨rfl, Contains_append_self _ _⟩
  · intro f err hc hw
    have hc2 : (Create options.Output (afterStat options w)).1 = .ok f := by
      rw [afterStat, Create_fst_trace]; exact hc
    obtain ⟨hf, key, old, hkey, hrun⟩ := run_file_create_ok pkg options w tmpl hp hd hthere f hc
    obtain ⟨-, key2, old2, -, hw2⟩ := Create_ok _ _ _ hc2
    subst hf
    have hac : afterCreate options w = { w with
        trace := w.trace ++ [.stat (Dir options.Output), .create options.Output,
          .debugf (Sprintf "Created output file: %s" [options.Output])]
        fs := w.fs.truncate key2 old2
        files := w.files ++
          [{ name := options.Output, key := key2, offset := 0, closed := false }] } := by
      rw [afterCreate, hw2]
      simp only [Debugf, afterStat, List.append_assoc, List.cons_append, List.nil_append]
    rw [run_file pkg options w tmpl hp hd, hthere]
    simp only [Bool.false_eq_true, if_false]
    rw [hc2]
    simp only
    rw [hac] at hw ⊢
    exact (runExecute_created tmpl options w.files
      { name := options.Output, key := key2, offset := 0, closed := false } _ rfl rfl).2.2.2.2.2.2.1
      err hw

/-- The witness of C6 (amended): the write that fails for lack of space. -/
theorem run_failure_context_witness :
    (fsTmp "old" 10).missing (Dir "/tmp/out.yml") = false ∧
      (run (pkgHostname namesExample) (optionsFor namesExample "localhost" "/tmp/out.yml")
          (worldOn (fsTmp "old" 10) [])).1
        = .returned (some (.withMessage (.PathError "write" "/tmp/out.yml" .ENOSPC)
            "unable to execute template")) ∧
      ∃ errno, GoError.PathError "write" "/tmp/out.yml" .ENOSPC
        = .PathError "write" "/tmp/out.yml" errno :=
  ⟨by decide,
    (run_failure_context (pkgHostname namesExample)
      (optionsFor namesExample "localhost" "/tmp/out.yml") (worldOn (fsTmp "old" 10) [])
      hostnameTemplate rfl (by decide) (by decide)).2 (.created 0)
      (.PathError "write" "/tmp/out.yml" .ENOSPC) rfl (by decide)⟩

/-- C7: once the parent directory is there, if `os.Create` returns a file then `run` returns
(with or without an error of the execution or of a write) and has closed that file exactly
once: the closing is the last call it made, no earlier call closes the file, and the file is
the one new entry of the open files, marked closed. If `os.Create` fails, the open files are
as before and nothing is closed. -/
theorem run_closes_created_file_once (pkg : Package) (options : CreateConfigEnvironmentOptions)
    (w : World) (tmpl : Template) (hp : pkg.Parse pkg.environmentConfigTemplate = .ok tmpl)
    (hd : ToLower options.Output ≠ "stdout")
    (hthere : w.fs.missing (Dir options.Output) = false) :
    (∀ f, (Create options.Output w).1 = .ok f →
        (∃ err, (run pkg options w).1 = .returned err) ∧
        (∃ key off, (run pkg options w).2.files
          = w.files ++ [{ name := options.Output, key := key, offset := off, closed := true }]) ∧
        ∃ es, (run pkg options w).2.trace = w.trace ++ es ++ [.close f] ∧
          Event.close f ∉ es) ∧
      (∀ err, (Create options.Output w).1 = .error err →
        (run pkg options w).2.files = w.files ∧
        ∃ es, (run pkg options w).2.trace = w.trace ++ es ∧ ∀ f, Event.close f ∉ es) := by
  refine ⟨?_, ?_⟩
  · intro f hc
    obtain ⟨hf, key, old, hkey, hrun⟩ := run_file_create_ok pkg options w tmpl hp hd hthere f hc
    subst hf
    rw [hrun]
    obtain ⟨⟨off, h1⟩, -, -, -, ⟨es, h5, h5b⟩, h6, -, -⟩ :=
      runExecute_created tmpl options w.files
        { name := options.Output, key := key, offset := 0, closed := false }
        { w with
          trace := w.trace ++ [.stat (Dir options.Output), .create options.Output,
            .debugf (Sprintf "Created output file: %s" [options.Output])]
          fs := w.fs.truncate key old
          files := w.files ++
            [{ name := options.Output, key := key, offset := 0, closed := false }] }
        rfl rfl
    refine ⟨h6, ⟨key, off, h1⟩,
      ⟨[.stat (Dir options.Output), .create options.Output,
        .debugf (Sprintf "Created output file: %s" [options.Output])] ++ es, ?_, ?_⟩⟩
    · rw [h5]; simp
    · intro hmem
      rcases List.mem_append.mp hmem with hmem | hmem
      · simp at hmem
      · rcases h5b _ hmem with ⟨b, hb⟩ | ⟨m, hm⟩
        · exact Event.noConfusion hb
        · exact Event.noConfusion hm
  · intro err hc
    rw [run_file_create_error pkg options w tmpl hp hd hthere err hc]
    refine ⟨rfl, ⟨_, rfl, ?_⟩⟩
    intro f hmem
    simp at hmem

/-- The witness of C7: a run that creates `/tmp/out.yml` and fails in the second write. -/
theorem run_closes_created_file_once_witness :
    (fsTmp "old" 10).missing (Dir "/tmp/out.yml") = false ∧
      (Create "/tmp/out.yml" (worldOn (fsTmp "old" 10) [])).1 = .ok (.created 0) ∧
      (run (pkgHostname namesExample) (optionsFor namesExample "localhost" "/tmp/out.yml")
          (worldOn (fsTmp "old" 10) [])).2.files
        = [{ name := "/tmp/out.yml", key := ["tmp", "out.yml"], offset := 13, closed := true }] ∧
      ∃ es, (run (pkgHostname namesExample) (optionsFor namesExample "localhost" "/tmp/out.yml")
          (worldOn (fsTmp "old" 10) [])).2.trace
          = (worldOn (fsTmp "old" 10) []).trace ++ es ++ [.close (.created 0)] ∧
        Event.close (.created 0) ∉ es :=
  ⟨by decide, rfl, by decide,
    ((run_closes_created_file_once (pkgHostname namesExample)
      (optionsFor namesExample "localhost" "/tmp/out.yml") (worldOn (fsTmp "old" 10) [])
      hostnameTemplate rfl (by decide) (by decide)).1 (.created 0) rfl).2.2⟩

/-- C8: `filepath.Dir(filepath.Dir(d) + "/") = filepath.Dir(d)` for every string `d` (for a bare
file name both are `.`, for a file under the root both are `/`); and for a destination that is
not the `stdout` sentinel the first call `run` makes is `os.Stat` on `filepath.Dir` of the
destination, `os.Create` of the destination comes right after it when the directory is there,
and is not called when it is missing. -/
theorem run_checks_parent_directory :
    (∀ d : String, Dir (Dir d ++ "/") = Dir d) ∧
      Dir (Dir "out.yml" ++ "/") = "." ∧ Dir "out.yml" = "." ∧
      Dir (Dir "/out.yml" ++ "/") = "/" ∧ Dir "/out.yml" = "/" ∧
      ∀ (pkg : Package) (options : CreateConfigEnvironmentOptions) (w : World) (tmpl : Template),
        pkg.Parse pkg.environmentConfigTemplate = .ok tmpl →
        ToLower options.Output ≠ "stdout" →
        ∃ rest, (run pkg options w).2.trace
            = w.trace ++ Event.stat (Dir options.Output) :: rest ∧
          (w.fs.missing (Dir options.Output) = false →
            ∃ rest2, rest = Event.create options.Output :: rest2) ∧
          (w.fs.missing (Dir options.Output) = true →
            Event.create options.Output ∉ rest) := by
  refine ⟨Dir_Dir_slash, by decide, by decide, by decide, by decide, ?_⟩
  intro pkg options w tmpl hp hd
  cases hm : w.fs.missing (Dir options.Output) with
  | true =>
    rw [run_file_missing pkg options w tmpl hp hd hm]
    refine ⟨_, by simp [Fatalf, afterStat]; rfl, by simp, ?_⟩
    intro _ hmem
    simp at hmem
  | false =>
    cases hc : (Create options.Output w).1 with
    | error err =>
      rw [run_file_create_error pkg options w tmpl hp hd hm err hc]
      exact ⟨_, rfl, fun _ => ⟨_, rfl⟩, by simp⟩
    | ok f =>
      obtain ⟨hf, key, old, hkey, hrun⟩ := run_file_create_ok pkg options w tmpl hp hd hm f hc
      rw [hrun]
      obtain ⟨-, -, -, -, ⟨es, h5, -⟩, -, -, -⟩ :=
        runExecute_created tmpl options w.files
          { name := options.Output, key := key, offset := 0, closed := false }
          { w with
            trace := w.trace ++ [.stat (Dir options.Output), .create options.Output,
              .debugf (Sprintf "Created output file: %s" [options.Output])]
            fs := w.fs.truncate key old
            files := w.files ++
              [{ name := options.Output, key := key, offset := 0, closed := false }] }
          rfl rfl
      refine ⟨.create options.Output ::
        .debugf (Sprintf "Created output file: %s" [options.Output]) ::
        (es ++ [.close (.created w.files.length)]), ?_, fun _ => ⟨_, rfl⟩, by simp⟩
      rw [h5]; simp

/-- The witness of C8: the destination `/tmp/out.yml`, checked at `/tmp` before it is created. -/
theorem run_checks_parent_directory_witness :
    ∃ rest, (run (pkgHostname namesExample) (optionsFor namesExample "localhost" "/tmp/out.yml")
        (worldOn (fsTmp "old" 100) [])).2.trace
        = (worldOn (fsTmp "old" 100) []).trace ++ Event.stat (Dir "/tmp/out.yml") :: rest ∧
      ((fsTmp "old" 100).missing (Dir "/tmp/out.yml") = false →
        ∃ rest2, rest = Event.create "/tmp/out.yml" :: rest2) ∧
      ((fsTmp "old" 100).missing (Dir "/tmp/out.yml") = true →
        Event.create "/tmp/out.yml" ∉ rest) :=
  run_checks_parent_directory.2.2.2.2.2 (pkgHostname namesExample)
    (optionsFor namesExample "localhost" "/tmp/out.yml") (worldOn (fsTmp "old" 100) [])
    hostnameTemplate rfl (by decide)

/-- The witness of C1: the destination `StdOut` on a file system with a file. -/
theorem run_stdout_touches_no_file_witness :
    ToLower "StdOut" = "stdout" ∧
      (run (pkgHostname namesExample) (optionsFor namesExample "localhost" "StdOut")
        (worldOn (fsTmp "old" 10) [])).2.fs = fsTmp "old" 10 ∧
      (run (pkgHostname namesExample) (optionsFor namesExample "localhost" "StdOut")
        (worldOn (fsTmp "old" 10) [])).2.stdout = "hostname: localhost" :=
  ⟨by decide,
    (run_stdout_touches_no_file (pkgHostname namesExample)
      (optionsFor namesExample "localhost" "StdOut") (worldOn (fsTmp "old" 10) [])
      (by decide)).1,
    ((run_stdout_touches_no_file (pkgHostname namesExample)
      (optionsFor namesExample "localhost" "StdOut") (worldOn (fsTmp "old" 10) [])
      (by decide)).2.2.2 hostnameTemplate rfl rfl rfl).2⟩

/-- The witness of C10: the destination `STDOUT`. -/
theorem run_stdout_closes_stdout_witness :
    ToLower "STDOUT" = "stdout" ∧
      (run (pkgHostname namesExample) (optionsFor namesExample "localhost" "STDOUT")
        (worldOn (fsTmp "old" 10) [])).2.stdoutClosed = true :=
  ⟨by decide,
    (run_stdout_closes_stdout (pkgHostname namesExample)
      (optionsFor namesExample "localhost" "STDOUT") (worldOn (fsTmp "old" 10) [])
      hostnameTemplate rfl (by decide)).2.1⟩

/-- C5 (counterexample): the variable named by `ZitiEdgeRouterHostnameVarName` is set to
`edge.example.com`, the values passed to `NewCmdCreateConfigEnvironment` hold the host name
`localhost`: the host name the command renders with is `localhost`, and so is the output. -/
theorem executeCommand_ignores_override :
    Getenv (worldOn (fsTmp "" 0) [("ZITI_EDGE_ROUTER_HOSTNAME", "edge.example.com")])
        namesExample.ZitiEdgeRouterHostnameVarName = "edge.example.com" ∧
      LeafField.get (optionsFor namesExample "localhost" "stdout").toConfigTemplateValues
        .RouterEdgeHostname = "localhost" ∧
      (executeCommand (pkgHostname namesExample) (dataHostname "localhost")
        { Output := "stdout", Verbose := false } "linux"
        (worldOn (fsTmp "" 0) [("ZITI_EDGE_ROUTER_HOSTNAME", "edge.example.com")])).2.stdout
        = "hostname: localhost" := by
  decide

/-- C5 (amended): the command calls `run` with options in which each listed leaf field has the
value it held in the `ConfigTemplateValues` passed to `NewCmdCreateConfigEnvironment`, and what
`run` does is the same whatever the environment variables hold: the outcome is the same and
the world afterwards differs in the environment only. -/
theorem executeCommand_renders_data (pkg : Package) (data : ConfigTemplateValues)
    (flags : CreateConfigOptions) (GOOS : String) :
    (∀ field : LeafField,
        LeafField.get (((NewCmdCreateConfigEnvironment pkg data).parseFlags flags).PreRun
          GOOS).environmentOptions.toConfigTemplateValues field = LeafField.get data field) ∧
      (∀ w : World, executeCommand pkg data flags GOOS w
        = run pkg (((NewCmdCreateConfigEnvironment pkg data).parseFlags flags).PreRun
            GOOS).environmentOptions w) ∧
      (∀ (w : World) (environ : List (String × String)),
        executeCommand pkg data flags GOOS { w with environ := environ }
          = ((executeCommand pkg data flags GOOS w).1,
              { (executeCommand pkg data flags GOOS w).2 with environ := environ })) := by
  refine ⟨?_, fun _ => rfl, ?_⟩
  · intro field
    cases field <;> rfl
  · intro w environ
    exact run_environ pkg _ w environ

set_option maxRecDepth 100000 in
theorem countVerbs_createConfigLongFormat :
    countVerbs .text createConfigLongFormat.data = 36 := by
  decide

/-- C9: `cmd.Long` is the fixed header of two paragraphs followed by 18 rows separated by line
feeds, the `i`-th row being the `i`-th name of the registry left-justified in 36 columns, one
space, and the value of the `i`-th leaf field of `data`; the 18 selectors of the registry are
pairwise distinct, the 18 leaf fields are pairwise distinct, the operands are these pairs in
order, and the format has 36 verbs for its 36 operands. -/
theorem NewCmdCreateConfigEnvironment_Long (pkg : Package) (data : ConfigTemplateValues) :
    (NewCmdCreateConfigEnvironment pkg data).Long
        = longHeader ++ String.intercalate "\n"
            (listing.map fun p => longRow (p.1.get pkg.EnvVariableNames) (p.2.get data)) ∧
      listing.length = 18 ∧ (listing.map Prod.fst).Nodup ∧ (listing.map Prod.snd).Nodup ∧
      createConfigLongArgs pkg.EnvVariableNames data
        = listing.flatMap (fun p => [p.1.get pkg.EnvVariableNames, p.2.get data]) ∧
      countVerbs .text createConfigLongFormat.data = 36 ∧
      (createConfigLongArgs pkg.EnvVariableNames data).length = 36 := by
  exact ⟨createConfigLong_eq pkg.EnvVariableNames data, by decide, by decide, by decide, rfl,
    countVerbs_createConfigLongFormat, rfl⟩

end Ziti
